import Mathlib

/-!
Shallow embedding of the langelot orchestration engine (TypeScript).

Strings are modelled as `List Char` (`Str`).  The tag-extraction codec
(`src/utils/xml-parser.ts`), the three capability workers, and the
orchestrator variants are translated function by function; the remote
text-generation service is an explicit `Connector` record of oracle
functions, and observable side effects (generation calls, uploads,
console warnings) are collected in an event list.
-/

set_option maxRecDepth 100000

namespace Langelot

abbrev Str := List Char

/-- Whitespace as removed by JavaScript `String.prototype.trim`
(space, tab, newline, carriage return, vertical tab, form feed). -/
def isWS (c : Char) : Bool :=
  c = ' ' || c = '\t' || c = '\n' || c = '\r' || c = '\x0b' || c = '\x0c'

/-- JavaScript `s.trim()`: drop whitespace from both ends. -/
def trimStr (s : Str) : Str :=
  ((s.dropWhile isWS).reverse.dropWhile isWS).reverse

/-- JavaScript `s.toLowerCase()` (ASCII; the literals compared are ASCII). -/
def lowerStr (s : Str) : Str := s.map Char.toLower

/-- Split `s` at the first occurrence of `pat`: returns the part strictly
before the occurrence and the part strictly after it.  This is the primitive
used to model leftmost regex matching of a literal pattern. -/
def splitFirst (pat : Str) : Str → Option (Str × Str)
  | [] => if pat.isEmpty then some ([], []) else none
  | c :: cs =>
    if pat.isPrefixOf (c :: cs) then some ([], (c :: cs).drop pat.length)
    else
      match splitFirst pat cs with
      | some (pre, post) => some (c :: pre, post)
      | none => none

/-- The opening tag string, as interpolated into the source regex. -/
def openTag (tag : Str) : Str := '<' :: (tag ++ ['>'])

/-- The closing tag string, as interpolated into the source regex. -/
def closeTag (tag : Str) : Str := '<' :: '/' :: (tag ++ ['>'])

/-- Fuel-indexed scanning loop of `extractXml`; structural recursion on the
fuel so that the kernel can evaluate it.  `extractXml_eq` below shows it
satisfies exactly the recursion of the source loop; the fuel (bounded by the
text length, which strictly decreases at every match) is never exhausted. -/
def extractXmlFuel (tag : Str) : Nat → Str → List Str
  | 0, _ => []
  | fuel + 1, text =>
    match splitFirst (openTag tag) text with
    | none => []
    | some (_, rest) =>
      match splitFirst (closeTag tag) rest with
      | none => []
      | some (content, rest2) => trimStr content :: extractXmlFuel tag fuel rest2

/-- `extractXml(text, tag)` from `src/utils/xml-parser.ts`: repeatedly apply
the non-greedy, dot-matches-newline regex `<tag>(.*?)</tag>` and collect each
captured group, trimmed.  Leftmost non-greedy matching of a literal-delimited
pattern is: find the first opening tag, then the first closing tag after it;
the capture is what lies between; scanning resumes after the closing tag. -/
def extractXml (text tag : Str) : List Str :=
  extractXmlFuel tag text.length text

/-- `extractSingleXml(text, tag)`: first extracted value, or `none`. -/
def extractSingleXml (text tag : Str) : Option Str :=
  (extractXml text tag).head?

/-- The three agent-type literals of `SubtaskStrategy.agentType`
(`simple | search | librarian`). -/
inductive AgentType
  | simple
  | search
  | librarian
deriving DecidableEq

/-- `SubtaskStrategy` from `src/utils/xml-parser.ts` (hinting protocol). -/
structure SubtaskStrategy where
  approach : Str
  description : Str
  agentType : AgentType
deriving DecidableEq

/-- Is the lowercased agent literal one of the three recognized ones
(the `includes` test of `parseSubtaskStrategies`)? -/
def agentRecognized (g : Str) : Bool :=
  let gl := lowerStr g
  gl = "simple".toList || gl = "search".toList || gl = "librarian".toList

/-- The agent type stored for a raw agent literal: its lowercasing when
recognized, else the `simple` default. -/
def classifyAgent (g : Str) : AgentType :=
  let gl := lowerStr g
  if gl = "search".toList then .search
  else if gl = "librarian".toList then .librarian
  else .simple

/-- The indexed loop of `parseSubtaskStrategies`: walk the three extracted
lists in lockstep up to the shortest (`minLength`), building one strategy per
complete triple; the second component collects the raw agent literals for
which `console.warn` fires (unrecognized types, kept with default). -/
def strategiesFrom : List Str → List Str → List Str → List SubtaskStrategy × List Str
  | a :: as, d :: ds, g :: gs =>
    let rest := strategiesFrom as ds gs
    (⟨a, d, classifyAgent g⟩ :: rest.1,
     if agentRecognized g then rest.2 else g :: rest.2)
  | _, _, _ => ([], [])

/-- `parseSubtaskStrategies(text)` from `src/utils/xml-parser.ts`. -/
def parseSubtaskStrategies (text : Str) : List SubtaskStrategy :=
  (strategiesFrom (extractXml text "approach".toList)
    (extractXml text "description".toList)
    (extractXml text "agent".toList)).1

/-- The warnings `parseSubtaskStrategies` emits via `console.warn`
(one per unrecognized agent literal, identified by the raw literal). -/
def parseStrategyWarnings (text : Str) : List Str :=
  (strategiesFrom (extractXml text "approach".toList)
    (extractXml text "description".toList)
    (extractXml text "agent".toList)).2

/-- `WorkerResult` from `src/utils/xml-parser.ts` (approach/result pair). -/
structure XmlWorkerResult where
  approach : Str
  result : Str
deriving DecidableEq

/-- `parseWorkerResults(responses, approaches)`: pair by position up to the
shorter list; per pair, `extractSingleXml(responses[i], 'result') ||
responses[i]` — note the JavaScript or-else also takes the raw response when
the extracted (trimmed) content is the empty string — then `.trim()`. -/
def parseWorkerResults : List Str → List Str → List XmlWorkerResult
  | r :: rs, a :: as =>
    let res :=
      match extractSingleXml r "result".toList with
      | some x => if x.isEmpty then r else x
      | none => r
    ⟨a, trimStr res⟩ :: parseWorkerResults rs as
  | _, _ => []

/-- The per-pair body of `parseWorkerResults`. -/
def pickResult (r : Str) : Str :=
  trimStr (match extractSingleXml r "result".toList with
    | some x => if x.isEmpty then r else x
    | none => r)

/-- `path.basename` (posix): the part after the last slash. -/
def basename (p : Str) : Str := (p.reverse.takeWhile (fun c => c ≠ '/')).reverse

/-- `path.extname`: from the last dot of the basename; empty when there is no
dot or the only dot leads the basename. -/
def extname (p : Str) : Str :=
  let b := basename p
  let tailRev := b.reverse.takeWhile (fun c => c ≠ '.')
  if tailRev.length + 1 ≤ b.length then
    if tailRev.length + 1 = b.length then [] else '.' :: tailRev.reverse
  else []

/-- A web citation (entries of `WebSearchResponse.sources`). -/
structure Source where
  title : Str
  url : Str
  snippet : Option Str
deriving DecidableEq

/-- Token usage statistics of a generation response. -/
structure Usage where
  prompt_tokens : Nat
  completion_tokens : Nat
  total_tokens : Nat
deriving DecidableEq

/-- `LLMResponse` of the connector. -/
structure LLMResponse where
  content : Str
  model : Str
  usage : Option Usage
deriving DecidableEq

/-- `WebSearchResponse` of the connector. -/
structure WebSearchResponse where
  content : Str
  model : Str
  sources : Option (List Source)
  usage : Option Usage
deriving DecidableEq

/-- The relevant part of the file-upload response. -/
structure FileUploadResponse where
  id : Str
  filename : Str
deriving DecidableEq

/-- `context` (`Record<string, any>`), modelled as ordered key/value pairs of
opaque serialized values; it only flows verbatim into prompts. -/
abbrev Ctx := List (Str × Str)

/-- Prompts, modelled by their construction data: each source prompt template
is injective in the listed fields, so an oracle can distinguish calls exactly
as the real service distinguishes distinct prompt strings. -/
inductive Prompt
  | orchestratorLegacy (task : Str) (ctx : Ctx)
  | orchestratorMixed (task : Str) (ctx : Ctx) (documentNames : List Str)
  | workerP (task approach description : Str) (ctx : Ctx)
  | synthesis (task : Str) (results : List (Str × Str))
  | simpleWorkerP (task approach description : Str) (ctx : Ctx)
  | searchInput (task approach description : Str) (ctx : Ctx)
  | fallbackP (task approach description : Str) (ctx : Ctx)
  | librarianP (task approach description : Str) (ctx : Ctx) (fileNames : List Str)
deriving DecidableEq

/-- The role labels passed to the connector for logging. -/
inductive RoleTag
  | orchestrator
  | synthesizer
  | workerN (n : Nat) (approach : Str)
  | simpleWorker (approach : Str)
  | webSearchWorker (approach : Str)
  | fallbackWorker (approach : Str)
  | librarianWorker (approach : Str)
deriving DecidableEq

/-- The `console.warn` messages of the orchestration pipeline. -/
inductive WarnMsg
  | invalidAgent (raw : Str)
  | librarianNoDocs
  | librarianInitFailed
  | webSearchFallback (approach : Str)
  | uploadFailed (path : Str)
deriving DecidableEq

/-- Observable side effects: generation calls (of all three connector call
kinds), remote uploads, and console warnings. -/
inductive Event
  | gen (role : RoleTag)
  | upload (path : Str)
  | warn (w : WarnMsg)
deriving DecidableEq

/-- The errors thrown by the pipeline, one constructor per `throw` site;
wrapper constructors model the message-prefixing re-throws. -/
inductive Err
  | generation (msg : Str)
  | retrieval (msg : Str)
  | uploadErr (msg : Str)
  | noStrategies
  | librarianNoFiles
  | librarianInitNoPaths
  | librarianInitAllFailed
  | librarianNotInit
  | fileNotFound (path : Str)
  | unsupportedType (ext : Str)
  | uploadWrapped (name : Str) (e : Err)
  | simpleWorkerFailed (e : Err)
  | librarianExecFailed (e : Err)
  | fallbackFailed (e : Err)
  | orchestrationFailed (e : Err)
deriving DecidableEq

/-- Componentwise decidable equality of `Except` values, so that concrete
pipeline outcomes can be checked by evaluation. -/
def exceptDecEq {ε α : Type} [DecidableEq ε] [DecidableEq α] :
    DecidableEq (Except ε α)
  | .ok a, .ok b =>
    if h : a = b then .isTrue (by rw [h]) else .isFalse (by simp [h])
  | .ok _, .error _ => .isFalse (by simp)
  | .error _, .ok _ => .isFalse (by simp)
  | .error e, .error f =>
    if h : e = f then .isTrue (by rw [h]) else .isFalse (by simp [h])

instance {ε α : Type} [DecidableEq ε] [DecidableEq α] : DecidableEq (Except ε α) :=
  exceptDecEq

/-- The external text-generation collaborator, as an oracle: each operation
is a function from its call data to a response or a connector error. -/
structure Connector where
  llmCall : Prompt → Str → Nat → Rat → RoleTag → Except Err LLMResponse
  webSearchCall : Prompt → Str → RoleTag → Except Err WebSearchResponse
  fileBasedCall : Prompt → List Str → Str → RoleTag → Except Err LLMResponse
  uploadFile : Str → Except Err FileUploadResponse

/-- The file-system view used by the librarian upload existence check. -/
structure Env where
  fileExists : Str → Bool

/-- JavaScript `v || d` for an optional string (absent or empty is falsy). -/
def orFalsyStr (v : Option Str) (d : Str) : Str :=
  match v with
  | some s => if s.isEmpty then d else s
  | none => d

/-- JavaScript `v || d` for an optional number modelled as Nat (0 falsy). -/
def orFalsyNat (v : Option Nat) (d : Nat) : Nat :=
  match v with
  | some n => if n = 0 then d else n
  | none => d

/-- JavaScript `v || d` for an optional number modelled as Rat (0 falsy). -/
def orFalsyRat (v : Option Rat) (d : Rat) : Rat :=
  match v with
  | some t => if t = 0 then d else t
  | none => d

/-- Resolved model/maxTokens/temperature of a worker. -/
structure ResolvedWorkerOptions where
  model : Str
  maxTokens : Nat
  temperature : Rat
deriving DecidableEq

/-- `WorkerOptions` from `src/types/index.ts`. -/
structure WorkerOptions where
  model : Option Str := none
  maxTokens : Option Nat := none
  temperature : Option Rat := none
deriving DecidableEq

/-- `SimpleWorker` constructor defaults. -/
def resolveSimpleWorkerOptions (o : WorkerOptions) : ResolvedWorkerOptions :=
  ⟨orFalsyStr o.model "gpt-4.1-mini".toList,
   orFalsyNat o.maxTokens 1000,
   orFalsyRat o.temperature (7/10)⟩

/-- `LibrarianWorker` constructor defaults (model/maxTokens/temperature). -/
def resolveLibrarianOptions (o : WorkerOptions) : ResolvedWorkerOptions :=
  ⟨orFalsyStr o.model "gpt-4.1".toList,
   orFalsyNat o.maxTokens 2000,
   orFalsyRat o.temperature (3/10)⟩

/-- The result-tag extraction `SimpleWorker.execute` and
`LibrarianWorker.execute` perform: first result span (trimmed) when the
regex matches, else the raw content. -/
def extractResultTag (content : Str) : Str :=
  match extractSingleXml content "result".toList with
  | some x => x
  | none => content

/-- `SimpleWorkerResult`. -/
structure SimpleWorkerResult where
  approach : Str
  result : Str
  model : Str
  duration : Nat
deriving DecidableEq

/-- `SimpleWorker.execute`.  Wall-clock `duration` is outside the model and
rendered as 0. -/
def simpleWorkerExecute (conn : Connector) (o : ResolvedWorkerOptions)
    (task approach description : Str) (ctx : Ctx) :
    Except Err SimpleWorkerResult × List Event :=
  let role := RoleTag.simpleWorker approach
  match conn.llmCall (.simpleWorkerP task approach description ctx)
      o.model o.maxTokens o.temperature role with
  | .ok resp =>
    (.ok ⟨approach, extractResultTag resp.content, o.model, 0⟩, [.gen role])
  | .error e => (.error (.simpleWorkerFailed e), [.gen role])

/-- `WebSearchResult`. -/
structure WebSearchResult where
  approach : Str
  result : Str
  sources : Option (List Source)
  searchPerformed : Bool
deriving DecidableEq

/-- Decimal rendering of an index for the enumerated source list. -/
def natToStr (n : Nat) : Str := (Nat.repr n).toList

/-- One line (plus optional snippet line) of the source enumeration of
`formatSearchResult`. -/
def formatSource (idx : Nat) (s : Source) : Str :=
  natToStr (idx + 1) ++ ". ".toList ++ s.title ++ " - ".toList ++ s.url
    ++ "\n".toList
    ++ (match s.snippet with
        | some sn => "   ".toList ++ sn ++ "\n".toList
        | none => [])

/-- The `forEach` enumeration of `formatSearchResult`. -/
def formatSources : Nat → List Source → Str
  | _, [] => []
  | i, s :: ss => formatSource i s ++ formatSources (i + 1) ss

/-- `formatSearchResult` of `WebSearchWorker`. -/
def formatSearchResult (resp : WebSearchResponse) (approach : Str) : Str :=
  let base := "Using the \"".toList ++ approach
    ++ "\" approach with web search:\n\n".toList ++ resp.content
  match resp.sources with
  | some srcs =>
    if srcs.isEmpty then base
    else base ++ "\n\nSources consulted:\n".toList ++ formatSources 0 srcs
  | none => base

/-- The visible disclaimer appended by the web-search fallback path. -/
def fallbackDisclaimer : Str :=
  "\n\n[Note: This response used training data only as web search was unavailable]".toList

/-- The or-else result-tag extraction of the web-search fallback (the
JavaScript or-else: an empty extracted string also falls back to the raw
content). -/
def fallbackBody (content : Str) : Str :=
  match extractSingleXml content "result".toList with
  | some x => if x.isEmpty then content else x
  | none => content

/-- `WebSearchWorker.executeFallback`: one plain generation call at fixed
maxTokens 1500 and temperature 0.7; the trimmed or-else extraction gets the
disclaimer appended. -/
def webSearchExecFallback (conn : Connector) (model : Str)
    (task approach description : Str) (ctx : Ctx) : Except Err Str × List Event :=
  let role := RoleTag.fallbackWorker approach
  match conn.llmCall (.fallbackP task approach description ctx)
      model 1500 (7/10) role with
  | .ok resp =>
    (.ok (trimStr (fallbackBody resp.content) ++ fallbackDisclaimer), [.gen role])
  | .error e => (.error (.fallbackFailed e), [.gen role])

/-- `WebSearchWorker.execute`: one retrieval-augmented call; on its failure,
warn and degrade to the plain fallback call (whose own failure surfaces). -/
def webSearchWorkerExecute (conn : Connector) (model : Str)
    (task approach description : Str) (ctx : Ctx) :
    Except Err WebSearchResult × List Event :=
  let role := RoleTag.webSearchWorker approach
  match conn.webSearchCall (.searchInput task approach description ctx) model role with
  | .ok resp =>
    (.ok ⟨approach, formatSearchResult resp approach, resp.sources, true⟩, [.gen role])
  | .error _ =>
    match webSearchExecFallback conn model task approach description ctx with
    | (.ok fb, evs) =>
      (.ok ⟨approach, fb, none, false⟩,
       .gen role :: .warn (.webSearchFallback approach) :: evs)
    | (.error e2, evs) =>
      (.error e2, .gen role :: .warn (.webSearchFallback approach) :: evs)

/-- `UploadedFile` tracked by the librarian worker. -/
structure UploadedFile where
  id : Str
  path : Str
  name : Str
deriving DecidableEq

/-- `LibrarianWorkerResult`. -/
structure LibrarianWorkerResult where
  approach : Str
  result : Str
  filesUsed : List Str
  model : Str
  duration : Nat
deriving DecidableEq

/-- The accepted upload extensions. -/
def supportedExtensions : List Str :=
  [".pdf".toList, ".txt".toList, ".md".toList, ".doc".toList, ".docx".toList]

/-- `LibrarianWorker.uploadFile`: existence check, extension check, then the
remote upload (logged as an upload event). -/
def librarianUploadOne (env : Env) (conn : Connector) (filePath : Str) :
    Except Err UploadedFile × List Event :=
  if env.fileExists filePath then
    let extension := lowerStr (extname filePath)
    if supportedExtensions.contains extension then
      match conn.uploadFile filePath with
      | .ok fr => (.ok ⟨fr.id, filePath, basename filePath⟩, [.upload filePath])
      | .error e =>
        (.error (.uploadWrapped (basename filePath) e), [.upload filePath])
    else (.error (.unsupportedType extension), [])
  else (.error (.fileNotFound filePath), [])

/-- The upload loop of the librarian init phase: a single failed upload is
logged (warning) and skipped. -/
def librarianInitLoop (env : Env) (conn : Connector) :
    List Str → List UploadedFile × List Event
  | [] => ([], [])
  | p :: ps =>
    let tryOne := librarianUploadOne env conn p
    let rest := librarianInitLoop env conn ps
    match tryOne with
    | (.ok uf, evs) => (uf :: rest.1, evs ++ rest.2)
    | (.error _, evs) => (rest.1, evs ++ Event.warn (.uploadFailed p) :: rest.2)

/-- The init phase of `LibrarianWorker`: fails when the path list is empty
or when zero uploads succeeded. -/
def librarianInit (env : Env) (conn : Connector) (filePaths : List Str) :
    Except Err (List UploadedFile) × List Event :=
  if filePaths.isEmpty then (.error .librarianInitNoPaths, [])
  else
    let r := librarianInitLoop env conn filePaths
    if r.1.isEmpty then (.error .librarianInitAllFailed, r.2)
    else (.ok r.1, r.2)

/-- `LibrarianWorker.execute`:  fails when no document was uploaded;
otherwise one file-based generation call referencing all uploaded files. -/
def librarianWorkerExecute (conn : Connector) (o : ResolvedWorkerOptions)
    (uploadedFiles : List UploadedFile)
    (task approach description : Str) (ctx : Ctx) :
    Except Err LibrarianWorkerResult × List Event :=
  if uploadedFiles.isEmpty then (.error .librarianNotInit, [])
  else
    let role := RoleTag.librarianWorker approach
    match conn.fileBasedCall
        (.librarianP task approach description ctx (uploadedFiles.map (·.name)))
        (uploadedFiles.map (·.id)) o.model role with
    | .ok resp =>
      (.ok ⟨approach, extractResultTag resp.content,
        uploadedFiles.map (·.name), o.model, 0⟩, [.gen role])
    | .error e => (.error (.librarianExecFailed e), [.gen role])

/-- `WorkerResult` from `src/types/index.ts` (all metadata optional). -/
structure WorkerResult where
  approach : Str
  result : Str
  sources : Option (List Source) := none
  searchPerformed : Option Bool := none
  filesUsed : Option (List Str) := none
  workerType : Option AgentType := none
  model : Option Str := none
  duration : Option Nat := none
deriving DecidableEq

/-- `OrchestratorResult`. -/
structure OrchestratorResult where
  task : Str
  strategies : List SubtaskStrategy
  results : List WorkerResult
  synthesis : Str
deriving DecidableEq

/-- The `workerType` option union (`simple | search | librarian | auto`). -/
inductive WorkerType
  | simple
  | search
  | librarian
  | auto
deriving DecidableEq

/-- `OrchestratorOptions` consumed by `src/orchestrator.ts` (the
enableWebSearch variant, called V0 here). -/
structure OrchestratorOptionsV0 where
  model : Option Str := none
  maxTokens : Option Nat := none
  temperature : Option Rat := none
  context : Option Ctx := none
  enableWebSearch : Option Bool := none
deriving DecidableEq

/-- V0 options after constructor defaulting. -/
structure ResolvedOptionsV0 where
  model : Str
  maxTokens : Nat
  temperature : Rat
  context : Ctx
  enableWebSearch : Bool
deriving DecidableEq

/-- The V0 `FlexibleOrchestrator` constructor. -/
def resolveOptionsV0 (o : OrchestratorOptionsV0) : ResolvedOptionsV0 :=
  ⟨orFalsyStr o.model "gpt-4.1".toList,
   orFalsyNat o.maxTokens 1500,
   orFalsyRat o.temperature (7/10),
   o.context.getD [],
   o.enableWebSearch.getD false⟩

/-- Orchestrator options of the workerType variant (first document of
part_005, called V1 here). -/
structure OrchestratorOptionsV1 where
  model : Option Str := none
  maxTokens : Option Nat := none
  temperature : Option Rat := none
  context : Option Ctx := none
  enableWebSearch : Option Bool := none
  enableLibrarian : Option Bool := none
  librarianFiles : Option (List Str) := none
  workerType : Option WorkerType := none
deriving DecidableEq

/-- V1 options after constructor defaulting. -/
structure ResolvedOptionsV1 where
  model : Str
  maxTokens : Nat
  temperature : Rat
  context : Ctx
  enableWebSearch : Bool
  enableLibrarian : Bool
  librarianFiles : List Str
  workerType : WorkerType
deriving DecidableEq

/-- The V1 `FlexibleOrchestrator` constructor. -/
def resolveOptionsV1 (o : OrchestratorOptionsV1) : ResolvedOptionsV1 :=
  ⟨orFalsyStr o.model "gpt-4.1".toList,
   orFalsyNat o.maxTokens 1500,
   orFalsyRat o.temperature (7/10),
   o.context.getD [],
   o.enableWebSearch.getD false,
   o.enableLibrarian.getD false,
   o.librarianFiles.getD [],
   o.workerType.getD .auto⟩

/-- Orchestrator options of the mixed-workers variant (second document of
part_005, called V2 here). -/
structure OrchestratorOptionsV2 where
  model : Option Str := none
  maxTokens : Option Nat := none
  temperature : Option Rat := none
  context : Option Ctx := none
  documents : Option (List Str) := none
deriving DecidableEq

/-- V2 options after constructor defaulting. -/
structure ResolvedOptionsV2 where
  model : Str
  maxTokens : Nat
  temperature : Rat
  context : Ctx
  documents : List Str
deriving DecidableEq

/-- The V2 `FlexibleOrchestrator` constructor. -/
def resolveOptionsV2 (o : OrchestratorOptionsV2) : ResolvedOptionsV2 :=
  ⟨orFalsyStr o.model "gpt-4.1".toList,
   orFalsyNat o.maxTokens 1500,
   orFalsyRat o.temperature (7/10),
   o.context.getD [],
   o.documents.getD []⟩

/-- Sequentialized `Promise.all` over per-strategy executions: strategies
run in order; the first error aborts the join, as the engine propagates the
first rejection.  Events accumulate in dispatch order. -/
def runAll (f : SubtaskStrategy → Except Err WorkerResult × List Event) :
    List SubtaskStrategy → Except Err (List WorkerResult) × List Event
  | [] => (.ok [], [])
  | s :: ss =>
    match f s with
    | (.error e, ev) => (.error e, ev)
    | (.ok r, ev) =>
      match runAll f ss with
      | (.error e, evs) => (.error e, ev ++ evs)
      | (.ok rs, evs) => (.ok (r :: rs), ev ++ evs)

/-- The body of `executeSimpleWorkers`: a `SimpleWorker` hard-wired to model
gpt-4.1-mini with the orchestrator maxTokens/temperature, its result mapped
into a `WorkerResult` with workerType simple. -/
def simpleDispatch (conn : Connector) (maxTokens : Nat) (temperature : Rat)
    (ctx : Ctx) (task : Str) (s : SubtaskStrategy) :
    Except Err WorkerResult × List Event :=
  let o := resolveSimpleWorkerOptions
    ⟨some "gpt-4.1-mini".toList, some maxTokens, some temperature⟩
  match simpleWorkerExecute conn o task s.approach s.description ctx with
  | (.ok r, ev) =>
    (.ok { approach := r.approach, result := r.result, workerType := some .simple,
           model := some r.model, duration := some r.duration }, ev)
  | (.error e, ev) => (.error e, ev)

/-- The body of `executeWebSearchWorkers` (V1/V2 mapping, with workerType
search). -/
def searchDispatch (conn : Connector) (model : Str) (ctx : Ctx) (task : Str)
    (s : SubtaskStrategy) : Except Err WorkerResult × List Event :=
  let wsModel := orFalsyStr (some model) "gpt-4.1".toList
  match webSearchWorkerExecute conn wsModel task s.approach s.description ctx with
  | (.ok r, ev) =>
    (.ok { approach := r.approach, result := r.result, sources := r.sources,
           searchPerformed := some r.searchPerformed,
           workerType := some .search }, ev)
  | (.error e, ev) => (.error e, ev)

/-- The V0 web-search mapping (no workerType field in the result record). -/
def searchDispatchV0 (conn : Connector) (model : Str) (ctx : Ctx) (task : Str)
    (s : SubtaskStrategy) : Except Err WorkerResult × List Event :=
  let wsModel := orFalsyStr (some model) "gpt-4.1".toList
  match webSearchWorkerExecute conn wsModel task s.approach s.description ctx with
  | (.ok r, ev) =>
    (.ok { approach := r.approach, result := r.result, sources := r.sources,
           searchPerformed := some r.searchPerformed }, ev)
  | (.error e, ev) => (.error e, ev)

/-- The librarian result mapping shared by V1 and V2. -/
def librarianDispatch (conn : Connector) (o : ResolvedWorkerOptions)
    (ufs : List UploadedFile) (ctx : Ctx) (task : Str) (s : SubtaskStrategy) :
    Except Err WorkerResult × List Event :=
  match librarianWorkerExecute conn o ufs task s.approach s.description ctx with
  | (.ok r, ev) =>
    (.ok { approach := r.approach, result := r.result,
           filesUsed := some r.filesUsed, workerType := some .librarian,
           model := some r.model, duration := some r.duration }, ev)
  | (.error e, ev) => (.error e, ev)

/-- `executeLibrarianWorkers` of V1: empty file list is a configuration
error thrown before any worker construction; otherwise one shared
`LibrarianWorker` is built from the orchestrator options, its init phase
runs once, and strategies fan out over it. -/
def executeLibrarianWorkersV1 (env : Env) (conn : Connector)
    (o : ResolvedOptionsV1) (task : Str) (strategies : List SubtaskStrategy) :
    Except Err (List WorkerResult) × List Event :=
  if o.librarianFiles.isEmpty then (.error .librarianNoFiles, [])
  else
    let lw := resolveLibrarianOptions
      ⟨some o.model, some o.maxTokens, some o.temperature⟩
    match librarianInit env conn o.librarianFiles with
    | (.error e, evs) => (.error e, evs)
    | (.ok ufs, evs) =>
      match runAll (librarianDispatch conn lw ufs o.context task) strategies with
      | (res, evs2) => (res, evs ++ evs2)

/-- `executeWebSearchWorkers` of V1. -/
def executeWebSearchWorkersV1 (conn : Connector) (model : Str) (ctx : Ctx)
    (task : Str) (strategies : List SubtaskStrategy) :
    Except Err (List WorkerResult) × List Event :=
  runAll (searchDispatch conn model ctx task) strategies

/-- `executeSimpleWorkers` of V1. -/
def executeSimpleWorkersV1 (conn : Connector) (maxTokens : Nat)
    (temperature : Rat) (ctx : Ctx) (task : Str)
    (strategies : List SubtaskStrategy) :
    Except Err (List WorkerResult) × List Event :=
  runAll (simpleDispatch conn maxTokens temperature ctx task) strategies

/-- JavaScript word character (for the regex word boundaries):
`[A-Za-z0-9_]`. -/
def isWordChar (c : Char) : Bool := c.isAlpha || c.isDigit || c = '_'

/-- A position is a word boundary against the given neighbouring character
(absent at the text edges). -/
def boundaryOk : Option Char → Bool
  | none => true
  | some c => !isWordChar c

/-- Does `kw` occur somewhere in the remaining text with word boundaries on
both sides?  `prev` is the character immediately before the position. -/
def hasWordFrom (kw : Str) (prev : Option Char) : Str → Bool
  | [] => false
  | c :: cs =>
    (boundaryOk prev && kw.isPrefixOf (c :: cs)
      && boundaryOk ((c :: cs).drop kw.length).head?)
    || hasWordFrom kw (some c) cs

/-- The regex test `\b kw \b` on `text`. -/
def containsWord (kw text : Str) : Bool := hasWordFrom kw none text

/-- First keyword alternation of `needsWebSearch`. -/
def recencyKeywords : List Str :=
  ["current".toList, "latest".toList, "recent".toList, "today".toList,
   "now".toList, "2024".toList, "2025".toList]

/-- Second keyword alternation of `needsWebSearch`. -/
def topicKeywords : List Str :=
  ["news".toList, "price".toList, "stock".toList, "weather".toList,
   "trends".toList]

/-- Keyword alternation of the `isSimpleTask` test. -/
def complexityKeywords : List Str :=
  ["complex".toList, "detailed".toList, "comprehensive".toList,
   "analysis".toList]

/-- The `needsWebSearch` test of `executeAutoWorkers` (on the lowercased
task). -/
def needsWebSearch (taskLower : Str) : Bool :=
  recencyKeywords.any (fun k => containsWord k taskLower)
    || topicKeywords.any (fun k => containsWord k taskLower)

/-- The `isSimpleTask` test of `executeAutoWorkers`. -/
def isSimpleTask (taskLower : Str) : Bool :=
  taskLower.length < 100
    && !(complexityKeywords.any (fun k => containsWord k taskLower))

/-- `executeAutoWorkers` of V1: the heuristic prefers documents first, then
the recency/topic keywords, then the short-and-not-complex test, else
search. -/
def executeAutoWorkersV1 (env : Env) (conn : Connector) (o : ResolvedOptionsV1)
    (task : Str) (strategies : List SubtaskStrategy) :
    Except Err (List WorkerResult) × List Event :=
  let taskLower := lowerStr task
  if !o.librarianFiles.isEmpty then
    executeLibrarianWorkersV1 env conn o task strategies
  else if needsWebSearch taskLower then
    executeWebSearchWorkersV1 conn o.model o.context task strategies
  else if isSimpleTask taskLower then
    executeSimpleWorkersV1 conn o.maxTokens o.temperature o.context task strategies
  else
    executeWebSearchWorkersV1 conn o.model o.context task strategies

/-- `orchestrate` of V1 (the workerType variant): decompose, route by the
workerType/enable flags, dispatch, synthesize; every error is re-thrown
wrapped. -/
def orchestrateV1 (env : Env) (conn : Connector) (opts : OrchestratorOptionsV1)
    (task : Str) : Except Err OrchestratorResult × List Event :=
  let o := resolveOptionsV1 opts
  match conn.llmCall (.orchestratorLegacy task o.context)
      o.model o.maxTokens o.temperature .orchestrator with
  | .error e => (.error (.orchestrationFailed e), [.gen .orchestrator])
  | .ok resp =>
    let strategies := parseSubtaskStrategies resp.content
    let log0 := Event.gen .orchestrator ::
      (parseStrategyWarnings resp.content).map (fun g => Event.warn (.invalidAgent g))
    if strategies.isEmpty then (.error (.orchestrationFailed .noStrategies), log0)
    else
      let step2 :=
        if o.workerType = .librarian || o.enableLibrarian then
          executeLibrarianWorkersV1 env conn o task strategies
        else if o.workerType = .search || o.enableWebSearch then
          executeWebSearchWorkersV1 conn o.model o.context task strategies
        else if o.workerType = .simple then
          executeSimpleWorkersV1 conn o.maxTokens o.temperature o.context task strategies
        else
          executeAutoWorkersV1 env conn o task strategies
      match step2 with
      | (.error e, evs) => (.error (.orchestrationFailed e), log0 ++ evs)
      | (.ok results, evs) =>
        match conn.llmCall
            (.synthesis task (results.map (fun r => (r.approach, r.result))))
            o.model o.maxTokens o.temperature .synthesizer with
        | .error e =>
          (.error (.orchestrationFailed e), log0 ++ evs ++ [.gen .synthesizer])
        | .ok syn =>
          (.ok ⟨task, strategies, results, syn.content⟩,
           log0 ++ evs ++ [.gen .synthesizer])

/-- The raw worker fan-out of the V0 `else` branch: one `llmCall` per
strategy with role WORKER-(i+1). -/
def rawWorkersLoop (conn : Connector) (o : ResolvedOptionsV0) (task : Str) :
    Nat → List SubtaskStrategy → Except Err (List LLMResponse) × List Event
  | _, [] => (.ok [], [])
  | i, s :: ss =>
    let role := RoleTag.workerN (i + 1) s.approach
    match conn.llmCall (.workerP task s.approach s.description o.context)
        o.model o.maxTokens o.temperature role with
    | .error e => (.error e, [.gen role])
    | .ok resp =>
      match rawWorkersLoop conn o task (i + 1) ss with
      | (.error e, evs) => (.error e, .gen role :: evs)
      | (.ok rs, evs) => (.ok (resp :: rs), .gen role :: evs)

/-- `orchestrate` of V0 (`src/orchestrator.ts`): web-search workers when
enabled, else raw workers whose contents go through `parseWorkerResults`. -/
def orchestrateV0 (conn : Connector) (opts : OrchestratorOptionsV0)
    (task : Str) : Except Err OrchestratorResult × List Event :=
  let o := resolveOptionsV0 opts
  match conn.llmCall (.orchestratorLegacy task o.context)
      o.model o.maxTokens o.temperature .orchestrator with
  | .error e => (.error (.orchestrationFailed e), [.gen .orchestrator])
  | .ok resp =>
    let strategies := parseSubtaskStrategies resp.content
    let log0 := Event.gen .orchestrator ::
      (parseStrategyWarnings resp.content).map (fun g => Event.warn (.invalidAgent g))
    if strategies.isEmpty then (.error (.orchestrationFailed .noStrategies), log0)
    else
      let step2 :=
        if o.enableWebSearch then
          runAll (searchDispatchV0 conn o.model o.context task) strategies
        else
          match rawWorkersLoop conn o task 0 strategies with
          | (.error e, evs) => (.error e, evs)
          | (.ok resps, evs) =>
            (.ok ((parseWorkerResults (resps.map (·.content))
                (strategies.map (·.approach))).map
              (fun p => { approach := p.approach, result := p.result })), evs)
      match step2 with
      | (.error e, evs) => (.error (.orchestrationFailed e), log0 ++ evs)
      | (.ok results, evs) =>
        match conn.llmCall
            (.synthesis task (results.map (fun r => (r.approach, r.result))))
            o.model o.maxTokens o.temperature .synthesizer with
        | .error e =>
          (.error (.orchestrationFailed e), log0 ++ evs ++ [.gen .synthesizer])
        | .ok syn =>
          (.ok ⟨task, strategies, results, syn.content⟩,
           log0 ++ evs ++ [.gen .synthesizer])

/-- The per-strategy dispatch of `executeMixedWorkers` (V2): per-strategy
downgrade of librarian hints when documents are missing or the shared
librarian worker is unavailable, then the switch over the three worker
kinds. -/
def mixedStrategyExec (env : Env) (conn : Connector) (o : ResolvedOptionsV2)
    (lib : Option (List UploadedFile)) (task : Str) (s : SubtaskStrategy) :
    Except Err WorkerResult × List Event :=
  let agentType :=
    if s.agentType = .librarian && (o.documents.isEmpty || lib.isNone) then
      AgentType.simple
    else s.agentType
  match agentType with
  | .librarian =>
    match lib with
    | none => (.error .librarianNotInit, [])
    | some ufs =>
      librarianDispatch conn
        (resolveLibrarianOptions ⟨some o.model, some o.maxTokens, some o.temperature⟩)
        ufs o.context task s
  | .search => searchDispatch conn o.model o.context task s
  | .simple => simpleDispatch conn o.maxTokens o.temperature o.context task s

/-- The one-time librarian setup of `executeMixedWorkers`: when librarian
strategies exist and documents are configured, run the init phase once (its
failure warns and leaves the worker unavailable); otherwise no worker. -/
def mixedInit (env : Env) (conn : Connector) (o : ResolvedOptionsV2)
    (strategies : List SubtaskStrategy) :
    Option (List UploadedFile) × List Event :=
  if (strategies.any fun s => s.agentType = .librarian) && !o.documents.isEmpty then
    match librarianInit env conn o.documents with
    | (.ok ufs, evs) => (some ufs, evs)
    | (.error _, evs) => (none, evs ++ [.warn .librarianInitFailed])
  else (none, [])

/-- `executeMixedWorkers` of V2: warn when librarian strategies exist but no
documents are configured; run the librarian setup once; then dispatch all
strategies. -/
def executeMixedWorkers (env : Env) (conn : Connector) (o : ResolvedOptionsV2)
    (task : Str) (strategies : List SubtaskStrategy) :
    Except Err (List WorkerResult) × List Event :=
  let warnNoDocs : List Event :=
    if (strategies.any fun s => s.agentType = .librarian) && o.documents.isEmpty then
      [.warn .librarianNoDocs]
    else []
  let initRes := mixedInit env conn o strategies
  match runAll (mixedStrategyExec env conn o initRes.1 task) strategies with
  | (res, evs) => (res, warnNoDocs ++ initRes.2 ++ evs)

/-- `orchestrate` of V2 (the mixed-workers variant). -/
def orchestrateV2 (env : Env) (conn : Connector) (opts : OrchestratorOptionsV2)
    (task : Str) : Except Err OrchestratorResult × List Event :=
  let o := resolveOptionsV2 opts
  match conn.llmCall (.orchestratorMixed task o.context (o.documents.map basename))
      o.model o.maxTokens o.temperature .orchestrator with
  | .error e => (.error (.orchestrationFailed e), [.gen .orchestrator])
  | .ok resp =>
    let strategies := parseSubtaskStrategies resp.content
    let log0 := Event.gen .orchestrator ::
      (parseStrategyWarnings resp.content).map (fun g => Event.warn (.invalidAgent g))
    if strategies.isEmpty then (.error (.orchestrationFailed .noStrategies), log0)
    else
      match executeMixedWorkers env conn o task strategies with
      | (.error e, evs) => (.error (.orchestrationFailed e), log0 ++ evs)
      | (.ok results, evs) =>
        match conn.llmCall
            (.synthesis task (results.map (fun r => (r.approach, r.result))))
            o.model o.maxTokens o.temperature .synthesizer with
        | .error e =>
          (.error (.orchestrationFailed e), log0 ++ evs ++ [.gen .synthesizer])
        | .ok syn =>
          (.ok ⟨task, strategies, results, syn.content⟩,
           log0 ++ evs ++ [.gen .synthesizer])

/-- The task of the end-to-end auto-mode scenario. -/
def batteryTask : Str := "Summarize recent advances in battery chemistry".toList

/-- A decomposition response yielding two strategies, one simple and one
search, used by concrete witnesses. -/
def demoDecomposition : Str :=
  ("<approach>A1</approach><agent>simple</agent><description>D1</description>"
    ++ "<approach>A2</approach><agent>search</agent><description>D2</description>").toList

/-- A decomposition response whose first strategy is hinted librarian. -/
def demoLibDecomposition : Str :=
  ("<approach>A1</approach><agent>librarian</agent><description>D1</description>"
    ++ "<approach>A2</approach><agent>simple</agent><description>D2</description>").toList

/-- A tagged worker response. -/
def demoWorkerResponse : Str := "<result>ok</result>".toList

/-- A total connector: every call succeeds; decomposition prompts return the
demo decomposition, all other prompts a tagged result. -/
def demoConn : Connector where
  llmCall := fun p _ _ _ _ =>
    match p with
    | .orchestratorLegacy _ _ => .ok ⟨demoDecomposition, "gpt-4.1".toList, none⟩
    | .orchestratorMixed _ _ _ => .ok ⟨demoDecomposition, "gpt-4.1".toList, none⟩
    | _ => .ok ⟨demoWorkerResponse, "gpt-4.1".toList, none⟩
  webSearchCall := fun _ _ _ =>
    .ok ⟨"found".toList, "gpt-4.1".toList, some [], none⟩
  fileBasedCall := fun _ _ _ _ => .ok ⟨demoWorkerResponse, "gpt-4.1".toList, none⟩
  uploadFile := fun p => .ok ⟨"id1".toList, basename p⟩

/-- A file system on which no file exists. -/
def demoEnv : Env where
  fileExists := fun _ => false

/-- A connector whose generation calls succeed with a librarian-hinted
decomposition, but whose retrieval-augmented and upload calls fail. -/
def libHintConn : Connector where
  llmCall := fun p _ _ _ _ =>
    match p with
    | .orchestratorLegacy _ _ => .ok ⟨demoLibDecomposition, "gpt-4.1".toList, none⟩
    | .orchestratorMixed _ _ _ => .ok ⟨demoLibDecomposition, "gpt-4.1".toList, none⟩
    | _ => .ok ⟨demoWorkerResponse, "gpt-4.1".toList, none⟩
  webSearchCall := fun _ _ _ => .error (.retrieval "down".toList)
  fileBasedCall := fun _ _ _ _ => .ok ⟨demoWorkerResponse, "gpt-4.1".toList, none⟩
  uploadFile := fun _ => .error (.uploadErr "down".toList)

/-- A connector whose retrieval-augmented call fails but whose plain
generation calls succeed. -/
def failingSearchConn : Connector where
  llmCall := demoConn.llmCall
  webSearchCall := fun _ _ _ => .error (.retrieval "down".toList)
  fileBasedCall := demoConn.fileBasedCall
  uploadFile := demoConn.uploadFile

/-- A connector where every call fails. -/
def deadConn : Connector where
  llmCall := fun _ _ _ _ _ => .error (.generation "down".toList)
  webSearchCall := fun _ _ _ => .error (.retrieval "down".toList)
  fileBasedCall := fun _ _ _ _ => .error (.generation "down".toList)
  uploadFile := fun _ => .error (.uploadErr "down".toList)

/-- The concrete demo V2 run used by witnesses. -/
def demoRunV2 : Except Err OrchestratorResult × List Event :=
  orchestrateV2 demoEnv demoConn {} "t".toList

/-- Its successful result. -/
def demoResV2 : OrchestratorResult := (demoRunV2.1).toOption.getD ⟨[], [], [], []⟩

/-- The concrete demo V0 run used by witnesses. -/
def demoRunV0 : Except Err OrchestratorResult × List Event :=
  orchestrateV0 demoConn {} "t".toList

/-- Its successful result. -/
def demoResV0 : OrchestratorResult := (demoRunV0.1).toOption.getD ⟨[], [], [], []⟩

theorem splitFirst_append {pat : Str} :
    ∀ {s pre post : Str}, splitFirst pat s = some (pre, post) →
      s = pre ++ pat ++ post := by
  intro s
  induction s with
  | nil =>
    intro pre post h
    simp only [splitFirst] at h
    split at h
    · next hp =>
      simp only [Option.some.injEq, Prod.mk.injEq] at h
      simp [List.isEmpty_iff.mp hp, ← h.1, ← h.2]
    · exact absurd h (by simp)
  | cons c cs ih =>
    intro pre post h
    simp only [splitFirst] at h
    split at h
    · next hp =>
      simp only [Option.some.injEq, Prod.mk.injEq] at h
      obtain ⟨rest, hrest⟩ := List.isPrefixOf_iff_prefix.mp hp
      rw [← h.1, ← h.2, ← hrest]
      simp [List.drop_left]
    · revert h
      split
      · next pre' post' hrec =>
        intro h
        simp only [Option.some.injEq, Prod.mk.injEq] at h
        rw [← h.1, ← h.2]
        simpa using ih hrec
      · intro h; exact absurd h (by simp)

theorem splitFirst_length_lt {pat : Str} (hpat : pat ≠ [])
    {s pre post : Str} (h : splitFirst pat s = some (pre, post)) :
    post.length < s.length := by
  have := splitFirst_append h
  subst this
  simp only [List.length_append]
  have : 0 < pat.length := List.length_pos.mpr hpat
  omega

theorem openTag_ne (tag : Str) : openTag tag ≠ [] := by simp [openTag]

theorem closeTag_ne (tag : Str) : closeTag tag ≠ [] := by simp [closeTag]

theorem extractXmlFuel_congr {tag : Str} :
    ∀ fuel₁ fuel₂ text, text.length ≤ fuel₁ → text.length ≤ fuel₂ →
      extractXmlFuel tag fuel₁ text = extractXmlFuel tag fuel₂ text := by
  intro fuel₁
  induction fuel₁ with
  | zero =>
    intro fuel₂ text h1 _
    have : text = [] := List.eq_nil_of_length_eq_zero (Nat.le_zero.mp h1)
    subst this
    cases fuel₂ with
    | zero => rfl
    | succ f =>
      simp only [extractXmlFuel, splitFirst, List.isEmpty_iff]
      rw [if_neg (openTag_ne tag)]
  | succ f ih =>
    intro fuel₂ text h1 h2
    cases fuel₂ with
    | zero =>
      have : text = [] := List.eq_nil_of_length_eq_zero (Nat.le_zero.mp h2)
      subst this
      simp only [extractXmlFuel, splitFirst, List.isEmpty_iff]
      rw [if_neg (openTag_ne tag)]
    | succ f' =>
      simp only [extractXmlFuel]
      cases hop : splitFirst (openTag tag) text with
      | none => rfl
      | some pr =>
        obtain ⟨pre, rest⟩ := pr
        dsimp only
        cases hcl : splitFirst (closeTag tag) rest with
        | none => rfl
        | some pr2 =>
          obtain ⟨content, rest2⟩ := pr2
          dsimp only
          have l1 := splitFirst_length_lt (openTag_ne tag) hop
          have l2 := splitFirst_length_lt (closeTag_ne tag) hcl
          simp only [List.cons.injEq, true_and]
          exact ih f' rest2 (by omega) (by omega)

/-- The recursion the source loop performs, proved of `extractXml` itself. -/
theorem extractXml_eq (text tag : Str) :
    extractXml text tag =
      match splitFirst (openTag tag) text with
      | none => []
      | some (_, rest) =>
        match splitFirst (closeTag tag) rest with
        | none => []
        | some (content, rest2) => trimStr content :: extractXml rest2 tag := by
  cases htext : text.length with
  | zero =>
    have : text = [] := List.eq_nil_of_length_eq_zero htext
    subst this
    simp only [extractXml, extractXmlFuel, splitFirst, List.isEmpty_iff]
    rw [if_neg (openTag_ne tag)]
  | succ n =>
    show extractXmlFuel tag text.length text = _
    rw [htext]
    simp only [extractXmlFuel]
    cases hop : splitFirst (openTag tag) text with
    | none => rfl
    | some pr =>
      obtain ⟨pre, rest⟩ := pr
      dsimp only
      cases hcl : splitFirst (closeTag tag) rest with
      | none => rfl
      | some pr2 =>
        obtain ⟨content, rest2⟩ := pr2
        dsimp only
        have l1 := splitFirst_length_lt (openTag_ne tag) hop
        have l2 := splitFirst_length_lt (closeTag_ne tag) hcl
        simp only [List.cons.injEq, true_and]
        exact extractXmlFuel_congr n rest2.length rest2 (by omega) (by omega)

theorem splitFirst_nil {pat : Str} (h : pat ≠ []) : splitFirst pat [] = none := by
  simp only [splitFirst, List.isEmpty_iff]
  exact if_neg h

theorem trimStr_eq_rdropWhile (s : Str) :
    trimStr s = List.rdropWhile isWS (List.dropWhile isWS s) := rfl

theorem dropWhile_trimStr (s : Str) :
    List.dropWhile isWS (trimStr s) = trimStr s := by
  rw [trimStr_eq_rdropWhile]
  rcases ht : List.rdropWhile isWS (List.dropWhile isWS s) with _ | ⟨c, t⟩
  · rfl
  · have hpre : (c :: t) <+: List.dropWhile isWS s := by
      rw [← ht]; exact List.rdropWhile_prefix isWS _
    have hself : List.dropWhile isWS (List.dropWhile isWS s) = List.dropWhile isWS s :=
      List.dropWhile_idempotent _ _
    have h0 := (List.dropWhile_eq_self_iff).mp hself
    obtain ⟨r, hr⟩ := hpre
    have hlen : 0 < (List.dropWhile isWS s).length := by
      rw [← hr]; simp
    have hc : (List.dropWhile isWS s).get ⟨0, hlen⟩ = c := by
      simp [← hr]
    have : ¬ isWS c := hc ▸ h0 hlen
    simp [List.dropWhile_cons, this]

theorem trimStr_trimStr (s : Str) : trimStr (trimStr s) = trimStr s := by
  calc trimStr (trimStr s)
      = List.rdropWhile isWS (List.dropWhile isWS (trimStr s)) := rfl
    _ = List.rdropWhile isWS (trimStr s) := by rw [dropWhile_trimStr]
    _ = List.rdropWhile isWS (List.rdropWhile isWS (List.dropWhile isWS s)) := rfl
    _ = List.rdropWhile isWS (List.dropWhile isWS s) := List.rdropWhile_idempotent _ _
    _ = trimStr s := rfl

theorem extractXml_nil_of_not_infix {text tag : Str}
    (h : ¬ (openTag tag) <:+: text) : extractXml text tag = [] := by
  rw [extractXml_eq]
  cases hop : splitFirst (openTag tag) text with
  | none => rfl
  | some pr =>
    obtain ⟨pre, post⟩ := pr
    exact absurd ⟨pre, post, (splitFirst_append hop).symm⟩ h

theorem extractXml_mem_trimmed_aux {tag : Str} :
    ∀ n text x, text.length ≤ n → x ∈ extractXml text tag → trimStr x = x := by
  intro n
  induction n with
  | zero =>
    intro text x h hx
    have : text = [] := List.eq_nil_of_length_eq_zero (Nat.le_zero.mp h)
    subst this
    rw [extractXml_eq, splitFirst_nil (openTag_ne tag)] at hx
    exact absurd hx (by simp)
  | succ n ih =>
    intro text x h hx
    rw [extractXml_eq] at hx
    cases hop : splitFirst (openTag tag) text with
    | none => rw [hop] at hx; exact absurd hx (by simp)
    | some pr =>
      obtain ⟨pre, rest⟩ := pr
      rw [hop] at hx
      dsimp only at hx
      cases hcl : splitFirst (closeTag tag) rest with
      | none => rw [hcl] at hx; exact absurd hx (by simp)
      | some pr2 =>
        obtain ⟨content, rest2⟩ := pr2
        rw [hcl] at hx
        dsimp only at hx
        rcases List.mem_cons.mp hx with hx | hx
        · rw [hx]; exact trimStr_trimStr content
        · have l1 := splitFirst_length_lt (openTag_ne tag) hop
          have l2 := splitFirst_length_lt (closeTag_ne tag) hcl
          exact ih rest2 x (by omega) hx

theorem extractXml_mem_trimmed {tag text x : Str}
    (hx : x ∈ extractXml text tag) : trimStr x = x :=
  extractXml_mem_trimmed_aux text.length text x (Nat.le_refl _) hx

theorem parseWorkerResults_eq_zipWith (rs as : List Str) :
    parseWorkerResults rs as =
      List.zipWith (fun r a => XmlWorkerResult.mk a (pickResult r)) rs as := by
  induction rs generalizing as with
  | nil => cases as <;> rfl
  | cons r rs ih =>
    cases as with
    | nil => rfl
    | cons a as => simp [parseWorkerResults, pickResult, ih]

theorem parseWorkerResults_length (rs as : List Str) :
    (parseWorkerResults rs as).length = min rs.length as.length := by
  rw [parseWorkerResults_eq_zipWith]; exact List.length_zipWith _ _ _

theorem parseWorkerResults_getElem? {rs as : List Str} {i : Nat} {r a : Str}
    (hr : rs[i]? = some r) (ha : as[i]? = some a) :
    (parseWorkerResults rs as)[i]? = some ⟨a, pickResult r⟩ := by
  rw [parseWorkerResults_eq_zipWith]
  rw [List.getElem?_zipWith, hr, ha]

theorem strategiesFrom_length (as ds gs : List Str) :
    (strategiesFrom as ds gs).1.length = min as.length (min ds.length gs.length) := by
  induction as generalizing ds gs with
  | nil => cases ds <;> cases gs <;> simp [strategiesFrom]
  | cons a as ih =>
    cases ds with
    | nil => simp [strategiesFrom]
    | cons d ds =>
      cases gs with
      | nil => simp [strategiesFrom]
      | cons g gs =>
        simp only [strategiesFrom, List.length_cons, ih]
        omega

theorem strategiesFrom_getElem? {as ds gs : List Str} {i : Nat} {a d g : Str}
    (ha : as[i]? = some a) (hd : ds[i]? = some d) (hg : gs[i]? = some g) :
    (strategiesFrom as ds gs).1[i]? = some ⟨a, d, classifyAgent g⟩ ∧
      (agentRecognized g = false → g ∈ (strategiesFrom as ds gs).2) := by
  induction as generalizing ds gs i with
  | nil => simp at ha
  | cons a0 as ih =>
    cases ds with
    | nil => simp at hd
    | cons d0 ds =>
      cases gs with
      | nil => simp at hg
      | cons g0 gs =>
        cases i with
        | zero =>
          simp only [List.getElem?_cons_zero, Option.some.injEq] at ha hd hg
          subst ha; subst hd; subst hg
          constructor
          · simp [strategiesFrom]
          · intro hrec
            simp [strategiesFrom, hrec]
        | succ i =>
          simp only [List.getElem?_cons_succ] at ha hd hg
          obtain ⟨h1, h2⟩ := ih ha hd hg
          constructor
          · simpa only [strategiesFrom, List.getElem?_cons_succ] using h1
          · intro hrec
            have hmem := h2 hrec
            cases hr : agentRecognized g0 with
            | true => simpa [strategiesFrom, hr] using hmem
            | false =>
              simp only [strategiesFrom, hr, Bool.false_eq_true, if_false]
              exact List.mem_cons_of_mem _ hmem

theorem classifyAgent_unrecognized {g : Str} (h : agentRecognized g = false) :
    classifyAgent g = .simple := by
  simp only [agentRecognized, Bool.or_eq_false_iff, decide_eq_false_iff_not] at h
  simp only [classifyAgent, if_neg h.1.2, if_neg h.2]

/-- C4: `extractXml` returns the contents of the non-overlapping, non-greedy
tag spans in document order, each trimmed; spans may contain newlines; a text
in which the opening tag never occurs yields the empty sequence, not an
error; and the concrete example of the spec evaluates as stated. -/
theorem extractXml_spec_c4 :
    extractXml "<t>a</t><t> b </t>".toList "t".toList = ["a".toList, "b".toList]
    ∧ extractXml "<t>a\nb</t>".toList "t".toList = ["a\nb".toList]
    ∧ (∀ text tag : Str, ¬ (openTag tag) <:+: text → extractXml text tag = [])
    ∧ (∀ text tag x : Str, x ∈ extractXml text tag → trimStr x = x) :=
  ⟨by decide, by decide,
   fun _ _ h => extractXml_nil_of_not_infix h,
   fun _ _ _ hx => extractXml_mem_trimmed hx⟩

/-- Witness for C4 at concrete inputs: a text without the tag yields `[]`,
and a member of a concrete extraction is trimmed. -/
theorem extractXml_spec_c4_witness :
    extractXml "no tags here".toList "t".toList = []
    ∧ trimStr "a".toList = "a".toList :=
  ⟨extractXml_spec_c4.2.2.1 "no tags here".toList "t".toList (by decide),
   extractXml_spec_c4.2.2.2 "<t> a </t>".toList "t".toList "a".toList (by decide)⟩

/-- C3 counterexample: for the response `<result></result>` a result tag IS
present (`extractSingleXml` finds one span, of empty trimmed content), yet
`parseWorkerResults` falls back to the full raw response text, because the
JavaScript or-else treats the empty extracted string as falsy.  The claim
predicted the fallback occurs if and only if no result tag is present, i.e.
the output result here would be the empty tag content. -/
theorem parseWorkerResults_empty_tag_c3_counterexample :
    extractSingleXml "<result></result>".toList "result".toList = some []
    ∧ parseWorkerResults ["<result></result>".toList] ["A".toList]
        = [⟨"A".toList, "<result></result>".toList⟩]
    ∧ ("<result></result>".toList : Str) ≠ [] :=
  ⟨by decide, by decide, by decide⟩

/-- C3 (amended): `parseWorkerResults` pairs responses with approaches by
position, truncating to the shorter length; for each pair it returns the
trimmed content of the first result tag when one is present and that trimmed
content is nonempty, and falls back to the full raw response text (trimmed)
exactly when no result tag is present or the first tag's trimmed content is
empty. -/
theorem parseWorkerResults_spec_c3 :
    (∀ rs as : List Str, (parseWorkerResults rs as).length = min rs.length as.length)
    ∧ (∀ (rs as : List Str) (i : Nat) (r a x : Str),
        rs[i]? = some r → as[i]? = some a →
        extractSingleXml r "result".toList = some x → x ≠ [] →
        (parseWorkerResults rs as)[i]? = some ⟨a, x⟩)
    ∧ (∀ (rs as : List Str) (i : Nat) (r a : Str),
        rs[i]? = some r → as[i]? = some a →
        (extractSingleXml r "result".toList = none ∨
          extractSingleXml r "result".toList = some []) →
        (parseWorkerResults rs as)[i]? = some ⟨a, trimStr r⟩) := by
  refine ⟨parseWorkerResults_length, ?_, ?_⟩
  · intro rs as i r a x hr ha hx hne
    rw [parseWorkerResults_getElem? hr ha]
    have hxmem : x ∈ extractXml r "result".toList := by
      have : (extractXml r "result".toList).head? = some x := hx
      exact List.mem_of_mem_head? (by rw [this]; exact rfl)
    have hxtrim : trimStr x = x := extractXml_mem_trimmed hxmem
    have hfalse : x.isEmpty = false := by
      cases x with
      | nil => exact absurd rfl hne
      | cons c cs => rfl
    unfold pickResult
    rw [hx]
    simp only [hfalse, Bool.false_eq_true, if_false, hxtrim]
  · intro rs as i r a hr ha hx
    rw [parseWorkerResults_getElem? hr ha]
    unfold pickResult
    rcases hx with hx | hx
    · rw [hx]
    · rw [hx]; rfl

/-- Witness for C3 at concrete inputs: a tagged response yields the tag
content; an untagged one yields the raw text. -/
theorem parseWorkerResults_spec_c3_witness :
    (parseWorkerResults ["<result>X</result>".toList] ["A".toList])[0]?
        = some ⟨"A".toList, "X".toList⟩
    ∧ (parseWorkerResults ["raw text".toList] ["B".toList])[0]?
        = some ⟨"B".toList, "raw text".toList⟩ :=
  ⟨parseWorkerResults_spec_c3.2.1 ["<result>X</result>".toList] ["A".toList] 0
      "<result>X</result>".toList "A".toList "X".toList
      (by decide) (by decide) (by decide) (by decide),
   parseWorkerResults_spec_c3.2.2 ["raw text".toList] ["B".toList] 0
      "raw text".toList "B".toList
      (by decide) (by decide) (Or.inl (by decide))⟩

/-- C5: `parseSubtaskStrategies` returns exactly the minimum of the numbers
of approach, description and agent tags — only complete tuples are kept and
trailing unmatched tags are silently dropped; in particular two
approach/description pairs with a single agent tag yield exactly one
strategy. -/
theorem parseSubtaskStrategies_length_c5 :
    (∀ text : Str, (parseSubtaskStrategies text).length =
      min (extractXml text "approach".toList).length
        (min (extractXml text "description".toList).length
          (extractXml text "agent".toList).length))
    ∧ (parseSubtaskStrategies
        ("<approach>A1</approach><agent>search</agent><description>D1</description>"
          ++ "<approach>A2</approach><description>D2</description>").toList).length = 1 :=
  ⟨fun _ => strategiesFrom_length _ _ _, by decide⟩

/-- C6: when an agent tag is present at position i (alongside an approach and
a description) but its value is not one of the three recognized literals, the
entry is kept, with its agent type defaulted to `simple`, and the raw literal
is reported in the non-fatal warnings. -/
theorem parseSubtaskStrategies_unrecognized_c6 :
    ∀ (text : Str) (i : Nat) (a d g : Str),
      (extractXml text "approach".toList)[i]? = some a →
      (extractXml text "description".toList)[i]? = some d →
      (extractXml text "agent".toList)[i]? = some g →
      agentRecognized g = false →
      (parseSubtaskStrategies text)[i]? = some ⟨a, d, AgentType.simple⟩ ∧
        g ∈ parseStrategyWarnings text := by
  intro text i a d g ha hd hg hrec
  obtain ⟨h1, h2⟩ := strategiesFrom_getElem? ha hd hg
  rw [classifyAgent_unrecognized hrec] at h1
  exact ⟨h1, h2 hrec⟩

theorem simpleWorkerExecute_ok_approach {conn : Connector}
    {o : ResolvedWorkerOptions} {task ap d : Str} {ctx : Ctx}
    {r : SimpleWorkerResult} {ev : List Event}
    (h : simpleWorkerExecute conn o task ap d ctx = (.ok r, ev)) :
    r.approach = ap := by
  unfold simpleWorkerExecute at h
  dsimp only at h
  split at h
  · simp only [Prod.mk.injEq, Except.ok.injEq] at h
    rw [← h.1]
  · simp at h

theorem webSearchWorkerExecute_ok_approach {conn : Connector}
    {model task ap d : Str} {ctx : Ctx}
    {r : WebSearchResult} {ev : List Event}
    (h : webSearchWorkerExecute conn model task ap d ctx = (.ok r, ev)) :
    r.approach = ap := by
  unfold webSearchWorkerExecute at h
  dsimp only at h
  repeat' split at h
  all_goals
    first
      | (simp only [Prod.mk.injEq, Except.ok.injEq] at h
         rw [← h.1])
      | simp at h

theorem librarianWorkerExecute_ok_approach {conn : Connector}
    {o : ResolvedWorkerOptions} {ufs : List UploadedFile} {task ap d : Str}
    {ctx : Ctx} {r : LibrarianWorkerResult} {ev : List Event}
    (h : librarianWorkerExecute conn o ufs task ap d ctx = (.ok r, ev)) :
    r.approach = ap := by
  unfold librarianWorkerExecute at h
  dsimp only at h
  repeat' split at h
  all_goals
    first
      | (simp only [Prod.mk.injEq, Except.ok.injEq] at h
         rw [← h.1])
      | simp at h

theorem simpleDispatch_ok_approach {conn : Connector} {mt : Nat} {tp : Rat}
    {ctx : Ctx} {task : Str} {s : SubtaskStrategy}
    {r : WorkerResult} {ev : List Event}
    (h : simpleDispatch conn mt tp ctx task s = (.ok r, ev)) :
    r.approach = s.approach := by
  unfold simpleDispatch at h
  dsimp only at h
  split at h
  · next r0 ev0 heq =>
    simp only [Prod.mk.injEq, Except.ok.injEq] at h
    rw [← h.1]
    exact simpleWorkerExecute_ok_approach heq
  · simp at h

theorem searchDispatch_ok_approach {conn : Connector} {model : Str}
    {ctx : Ctx} {task : Str} {s : SubtaskStrategy}
    {r : WorkerResult} {ev : List Event}
    (h : searchDispatch conn model ctx task s = (.ok r, ev)) :
    r.approach = s.approach := by
  unfold searchDispatch at h
  dsimp only at h
  split at h
  · next r0 ev0 heq =>
    simp only [Prod.mk.injEq, Except.ok.injEq] at h
    rw [← h.1]
    exact webSearchWorkerExecute_ok_approach heq
  · simp at h

theorem searchDispatchV0_ok_approach {conn : Connector} {model : Str}
    {ctx : Ctx} {task : Str} {s : SubtaskStrategy}
    {r : WorkerResult} {ev : List Event}
    (h : searchDispatchV0 conn model ctx task s = (.ok r, ev)) :
    r.approach = s.approach := by
  unfold searchDispatchV0 at h
  dsimp only at h
  split at h
  · next r0 ev0 heq =>
    simp only [Prod.mk.injEq, Except.ok.injEq] at h
    rw [← h.1]
    exact webSearchWorkerExecute_ok_approach heq
  · simp at h

theorem librarianDispatch_ok_approach {conn : Connector}
    {o : ResolvedWorkerOptions} {ufs : List UploadedFile} {ctx : Ctx}
    {task : Str} {s : SubtaskStrategy} {r : WorkerResult} {ev : List Event}
    (h : librarianDispatch conn o ufs ctx task s = (.ok r, ev)) :
    r.approach = s.approach := by
  unfold librarianDispatch at h
  split at h
  · next r0 ev0 heq =>
    simp only [Prod.mk.injEq, Except.ok.injEq] at h
    rw [← h.1]
    exact librarianWorkerExecute_ok_approach heq
  · simp at h

theorem mixedStrategyExec_ok_approach {env : Env} {conn : Connector}
    {o : ResolvedOptionsV2} {lib : Option (List UploadedFile)} {task : Str}
    {s : SubtaskStrategy} {r : WorkerResult} {ev : List Event}
    (h : mixedStrategyExec env conn o lib task s = (.ok r, ev)) :
    r.approach = s.approach := by
  unfold mixedStrategyExec at h
  dsimp only at h
  split at h
  · split at h
    · simp at h
    · exact librarianDispatch_ok_approach h
  · exact searchDispatch_ok_approach h
  · exact simpleDispatch_ok_approach h

theorem runAll_ok_map_approach
    {f : SubtaskStrategy → Except Err WorkerResult × List Event}
    (hf : ∀ s r ev, f s = (.ok r, ev) → r.approach = s.approach) :
    ∀ {l : List SubtaskStrategy} {rs : List WorkerResult} {ev : List Event},
      runAll f l = (.ok rs, ev) →
      rs.map WorkerResult.approach = l.map SubtaskStrategy.approach := by
  intro l
  induction l with
  | nil =>
    intro rs ev h
    simp only [runAll, Prod.mk.injEq, Except.ok.injEq] at h
    rw [← h.1]; rfl
  | cons s ss ih =>
    intro rs ev h
    unfold runAll at h
    split at h
    · simp at h
    · next r0 ev0 heq =>
      split at h
      · simp at h
      · next rs0 evs0 heq2 =>
        simp only [Prod.mk.injEq, Except.ok.injEq] at h
        rw [← h.1]
        simp only [List.map_cons]
        rw [hf s r0 ev0 heq, ih heq2]

theorem rawWorkersLoop_ok_length {conn : Connector} {o : ResolvedOptionsV0}
    {task : Str} :
    ∀ {i : Nat} {l : List SubtaskStrategy} {resps : List LLMResponse}
      {ev : List Event},
      rawWorkersLoop conn o task i l = (.ok resps, ev) →
      resps.length = l.length := by
  intro i l
  induction l generalizing i with
  | nil =>
    intro resps ev h
    simp only [rawWorkersLoop, Prod.mk.injEq, Except.ok.injEq] at h
    rw [← h.1]; rfl
  | cons s ss ih =>
    intro resps ev h
    unfold rawWorkersLoop at h
    dsimp only at h
    split at h
    · simp at h
    · split at h
      · simp at h
      · next rs0 evs0 heq2 =>
        simp only [Prod.mk.injEq, Except.ok.injEq] at h
        rw [← h.1]
        simp only [List.length_cons, ih heq2]

theorem parseWorkerResults_map_approach (rs as : List Str) :
    (parseWorkerResults rs as).map XmlWorkerResult.approach = as.take rs.length := by
  induction rs generalizing as with
  | nil => cases as <;> rfl
  | cons r rs ih =>
    cases as with
    | nil => rfl
    | cons a as => simp [parseWorkerResults, ih]

theorem map_approach_invariant {rs : List WorkerResult}
    {ss : List SubtaskStrategy}
    (hmap : rs.map WorkerResult.approach = ss.map SubtaskStrategy.approach) :
    rs.length = ss.length ∧
      ∀ i : Nat, (rs[i]?).map WorkerResult.approach
        = (ss[i]?).map SubtaskStrategy.approach := by
  constructor
  · have := congrArg List.length hmap
    simpa using this
  · intro i
    rw [← List.getElem?_map, ← List.getElem?_map, hmap]

theorem executeMixedWorkers_ok_runAll {env : Env} {conn : Connector}
    {o : ResolvedOptionsV2} {task : Str} {strategies : List SubtaskStrategy}
    {results : List WorkerResult} {evs : List Event}
    (h : executeMixedWorkers env conn o task strategies = (.ok results, evs)) :
    ∃ evs0, runAll (mixedStrategyExec env conn o
        (mixedInit env conn o strategies).1 task) strategies
      = (.ok results, evs0) := by
  unfold executeMixedWorkers at h
  dsimp only at h
  simp only [Prod.mk.injEq] at h
  exact ⟨_, by rw [← h.1]⟩

/-- C1: for every successful orchestrate call of the mixed-workers variant
and of the `src/orchestrator.ts` variant, the results sequence has the same
length as the strategies sequence and the approach at every index matches,
regardless of which worker types are routed. -/
theorem orchestrate_order_invariant_c1 :
    (∀ (env : Env) (conn : Connector) (opts : OrchestratorOptionsV2)
        (task : Str) (res : OrchestratorResult) (log : List Event),
      orchestrateV2 env conn opts task = (.ok res, log) →
      res.results.length = res.strategies.length ∧
        ∀ i : Nat, (res.results[i]?).map WorkerResult.approach
          = (res.strategies[i]?).map SubtaskStrategy.approach)
    ∧ (∀ (conn : Connector) (opts : OrchestratorOptionsV0)
        (task : Str) (res : OrchestratorResult) (log : List Event),
      orchestrateV0 conn opts task = (.ok res, log) →
      res.results.length = res.strategies.length ∧
        ∀ i : Nat, (res.results[i]?).map WorkerResult.approach
          = (res.strategies[i]?).map SubtaskStrategy.approach) := by
  constructor
  · intro env conn opts task res log h
    unfold orchestrateV2 at h
    dsimp only at h
    split at h
    · simp at h
    · next resp heq1 =>
      split at h
      · simp at h
      · split at h
        · simp at h
        · next results evs heq2 =>
          split at h
          · simp at h
          · next syn heq3 =>
            simp only [Prod.mk.injEq, Except.ok.injEq] at h
            obtain ⟨evs0, hrun⟩ := executeMixedWorkers_ok_runAll heq2
            have hmap := runAll_ok_map_approach
              (fun s r ev hh => mixedStrategyExec_ok_approach hh) hrun
            rw [← h.1]
            exact map_approach_invariant hmap
  · intro conn opts task res log h
    unfold orchestrateV0 at h
    dsimp only at h
    split at h
    · simp at h
    · next resp heq1 =>
      split at h
      · simp at h
      · split at h
        · simp at h
        · next results evs heq2 =>
          split at h
          · simp at h
          · next syn heq3 =>
            simp only [Prod.mk.injEq, Except.ok.injEq] at h
            rw [← h.1]
            revert heq2
            split
            · intro heq2
              have hmap := runAll_ok_map_approach
                (fun s r ev hh => searchDispatchV0_ok_approach hh) heq2
              exact map_approach_invariant hmap
            · split
              · intro heq2; simp at heq2
              · next resps evsr heqr =>
                intro heq2
                simp only [Prod.mk.injEq, Except.ok.injEq] at heq2
                have hlen : (resps.map LLMResponse.content).length
                    = (parseSubtaskStrategies resp.content).length := by
                  simp [rawWorkersLoop_ok_length heqr]
                have hmap : results.map WorkerResult.approach
                    = (parseSubtaskStrategies resp.content).map
                        SubtaskStrategy.approach := by
                  rw [← heq2.1]
                  rw [List.map_map]
                  have : (fun p => WorkerResult.approach
                      { approach := p.approach, result := p.result })
                      = XmlWorkerResult.approach := rfl
                  rw [show ((WorkerResult.approach ∘ fun p =>
                      ({ approach := p.approach, result := p.result } : WorkerResult)))
                      = XmlWorkerResult.approach from rfl]
                  rw [parseWorkerResults_map_approach, hlen]
                  simp
                exact map_approach_invariant hmap

/-- Witness for C1 at the concrete demo run of the mixed orchestrator. -/
theorem orchestrate_order_invariant_c1_witness :
    demoResV2.results.length = demoResV2.strategies.length ∧
      ∀ i : Nat, (demoResV2.results[i]?).map WorkerResult.approach
        = (demoResV2.strategies[i]?).map SubtaskStrategy.approach :=
  orchestrate_order_invariant_c1.1 demoEnv demoConn {} "t".toList
    demoResV2 demoRunV2.2 (by decide)

/-- C2 counterexample: with the librarian override and no files, the run
does fail with the configuration error, but only after the decomposition
generation call — the event log of the failing run already contains a
generation call, so the failure is not before any generation call is made. -/
theorem librarian_override_c2_counterexample :
    orchestrateV1 demoEnv demoConn { workerType := some .librarian } "t".toList
      = (.error (.orchestrationFailed .librarianNoFiles), [.gen .orchestrator])
    ∧ Event.gen .orchestrator ∈
        (orchestrateV1 demoEnv demoConn { workerType := some .librarian }
          "t".toList).2 :=
  ⟨by decide, by decide⟩

/-- C2 (amended): when the worker-type override is librarian and the
configured file list is empty, and the decomposition call succeeds with at
least one strategy, `orchestrate` fails with the configuration error
(librarian workers require files) after the decomposition generation call
but before any worker or synthesis generation call: the only generation
event in the log is the decomposition call. -/
theorem librarian_override_config_error_c2
    (env : Env) (conn : Connector) (opts : OrchestratorOptionsV1) (task : Str)
    (resp : LLMResponse)
    (hwt : (resolveOptionsV1 opts).workerType = .librarian)
    (hfiles : (resolveOptionsV1 opts).librarianFiles = [])
    (hllm : conn.llmCall (.orchestratorLegacy task (resolveOptionsV1 opts).context)
        (resolveOptionsV1 opts).model (resolveOptionsV1 opts).maxTokens
        (resolveOptionsV1 opts).temperature .orchestrator = .ok resp)
    (hs : parseSubtaskStrategies resp.content ≠ []) :
    (orchestrateV1 env conn opts task).1
        = .error (.orchestrationFailed .librarianNoFiles)
    ∧ ∀ r, Event.gen r ∈ (orchestrateV1 env conn opts task).2 →
        r = .orchestrator := by
  have hrun : orchestrateV1 env conn opts task
      = (.error (.orchestrationFailed .librarianNoFiles),
         Event.gen .orchestrator ::
           (parseStrategyWarnings resp.content).map
             (fun g => Event.warn (.invalidAgent g))) := by
    unfold orchestrateV1
    dsimp only
    rw [hllm]
    dsimp only
    rw [if_neg (by simpa [List.isEmpty_iff] using hs)]
    rw [if_pos (by simp [hwt])]
    unfold executeLibrarianWorkersV1
    rw [hfiles]
    simp
  refine ⟨by rw [hrun], ?_⟩
  rw [hrun]
  intro r hr
  simp only [List.mem_cons, List.mem_map] at hr
  rcases hr with hr | ⟨g, _, hg⟩
  · exact (Event.gen.injEq _ _).mp hr
  · exact absurd hg (by simp)

/-- Witness for C2 at the concrete demo run. -/
theorem librarian_override_config_error_c2_witness :
    (orchestrateV1 demoEnv demoConn { workerType := some .librarian }
        "t".toList).1 = .error (.orchestrationFailed .librarianNoFiles) :=
  (librarian_override_config_error_c2 demoEnv demoConn
    { workerType := some .librarian } "t".toList
    ⟨demoDecomposition, "gpt-4.1".toList, none⟩
    (by decide) (by decide) (by decide) (by decide)).1

theorem simpleDispatch_total {conn : Connector}
    (hconn : ∀ p m mt t r, ∃ resp, conn.llmCall p m mt t r = .ok resp)
    (mt : Nat) (tp : Rat) (ctx : Ctx) (task : Str) (s : SubtaskStrategy) :
    ∃ r ev, simpleDispatch conn mt tp ctx task s = (.ok r, ev)
      ∧ r.workerType = some .simple ∧ r.approach = s.approach := by
  obtain ⟨resp, hresp⟩ := hconn (.simpleWorkerP task s.approach s.description ctx)
    (resolveSimpleWorkerOptions
      ⟨some "gpt-4.1-mini".toList, some mt, some tp⟩).model
    (resolveSimpleWorkerOptions
      ⟨some "gpt-4.1-mini".toList, some mt, some tp⟩).maxTokens
    (resolveSimpleWorkerOptions
      ⟨some "gpt-4.1-mini".toList, some mt, some tp⟩).temperature
    (.simpleWorker s.approach)
  have heq : simpleDispatch conn mt tp ctx task s
      = (.ok { approach := s.approach,
               result := extractResultTag resp.content,
               workerType := some .simple,
               model := some (resolveSimpleWorkerOptions
                 ⟨some "gpt-4.1-mini".toList, some mt, some tp⟩).model,
               duration := some 0 },
         [.gen (.simpleWorker s.approach)]) := by
    unfold simpleDispatch simpleWorkerExecute
    dsimp only
    rw [hresp]
  exact ⟨_, _, heq, rfl, rfl⟩

theorem searchDispatch_total {conn : Connector}
    (hconn : ∀ p m mt t r, ∃ resp, conn.llmCall p m mt t r = .ok resp)
    (model : Str) (ctx : Ctx) (task : Str) (s : SubtaskStrategy) :
    ∃ r ev, searchDispatch conn model ctx task s = (.ok r, ev)
      ∧ r.workerType = some .search ∧ r.approach = s.approach := by
  cases hws : conn.webSearchCall (.searchInput task s.approach s.description ctx)
      (orFalsyStr (some model) "gpt-4.1".toList) (.webSearchWorker s.approach) with
  | ok resp =>
    have heq : searchDispatch conn model ctx task s
        = (.ok { approach := s.approach,
                 result := formatSearchResult resp s.approach,
                 sources := resp.sources, searchPerformed := some true,
                 workerType := some .search },
           [Event.gen (.webSearchWorker s.approach)]) := by
      unfold searchDispatch webSearchWorkerExecute
      dsimp only
      rw [hws]
    exact ⟨_, _, heq, rfl, rfl⟩
  | error e =>
    obtain ⟨resp, hresp⟩ := hconn (.fallbackP task s.approach s.description ctx)
      (orFalsyStr (some model) "gpt-4.1".toList) 1500 (7/10)
      (.fallbackWorker s.approach)
    have heq : searchDispatch conn model ctx task s
        = (.ok { approach := s.approach,
                 result := trimStr (fallbackBody resp.content) ++ fallbackDisclaimer,
                 sources := none, searchPerformed := some false,
                 workerType := some .search },
           Event.gen (.webSearchWorker s.approach)
             :: Event.warn (.webSearchFallback s.approach)
             :: [Event.gen (.fallbackWorker s.approach)]) := by
      unfold searchDispatch webSearchWorkerExecute webSearchExecFallback
      dsimp only
      rw [hws, hresp]
    exact ⟨_, _, heq, rfl, rfl⟩

theorem mixedStrategyExec_none_total {env : Env} {conn : Connector}
    {o : ResolvedOptionsV2}
    (hconn : ∀ p m mt t r, ∃ resp, conn.llmCall p m mt t r = .ok resp)
    (task : Str) (s : SubtaskStrategy) :
    ∃ r ev, mixedStrategyExec env conn o none task s = (.ok r, ev)
      ∧ r.workerType
          = some (if s.agentType = .librarian then .simple else s.agentType)
      ∧ r.approach = s.approach := by
  unfold mixedStrategyExec
  dsimp only
  cases hA : s.agentType with
  | librarian =>
    simpa using simpleDispatch_total hconn o.maxTokens o.temperature
      o.context task s
  | search =>
    simpa using searchDispatch_total hconn o.model o.context task s
  | simple =>
    simpa using simpleDispatch_total hconn o.maxTokens o.temperature
      o.context task s

theorem runAll_total {f : SubtaskStrategy → Except Err WorkerResult × List Event}
    {P : SubtaskStrategy → WorkerResult → Prop}
    (hf : ∀ s, ∃ r ev, f s = (.ok r, ev) ∧ P s r) :
    ∀ l : List SubtaskStrategy, ∃ rs ev, runAll f l = (.ok rs, ev)
      ∧ rs.length = l.length
      ∧ ∀ (j : Nat) (sj : SubtaskStrategy), l[j]? = some sj →
          ∃ rj, rs[j]? = some rj ∧ P sj rj := by
  intro l
  induction l with
  | nil =>
    refine ⟨[], [], rfl, rfl, ?_⟩
    intro j sj hj
    simp at hj
  | cons s ss ih =>
    obtain ⟨r, ev, hfs, hP⟩ := hf s
    obtain ⟨rs, evs, hrun, hlen, hpt⟩ := ih
    refine ⟨r :: rs, ev ++ evs, ?_, by simp [hlen], ?_⟩
    · unfold runAll
      rw [hfs, hrun]
    · intro j sj hj
      cases j with
      | zero =>
        simp only [List.getElem?_cons_zero, Option.some.injEq] at hj
        subst hj
        exact ⟨r, List.getElem?_cons_zero, hP⟩
      | succ j =>
        simp only [List.getElem?_cons_succ] at hj ⊢
        exact hpt j sj hj

theorem orchestrateV2_total_libNone {env : Env} {conn : Connector}
    {opts : OrchestratorOptionsV2} {task : Str} {resp : LLMResponse}
    (hconn : ∀ p m mt t r, ∃ rsp, conn.llmCall p m mt t r = .ok rsp)
    (hdec : conn.llmCall (.orchestratorMixed task (resolveOptionsV2 opts).context
        ((resolveOptionsV2 opts).documents.map basename))
      (resolveOptionsV2 opts).model (resolveOptionsV2 opts).maxTokens
      (resolveOptionsV2 opts).temperature .orchestrator = .ok resp)
    (hne : parseSubtaskStrategies resp.content ≠ [])
    (hinit : (mixedInit env conn (resolveOptionsV2 opts)
        (parseSubtaskStrategies resp.content)).1 = none) :
    ∃ rs ev syn,
      orchestrateV2 env conn opts task
        = (.ok ⟨task, parseSubtaskStrategies resp.content, rs, syn⟩,
           (Event.gen .orchestrator ::
             (parseStrategyWarnings resp.content).map
               (fun g => Event.warn (.invalidAgent g)))
           ++ ((if (parseSubtaskStrategies resp.content).any
                   (fun s => s.agentType = .librarian)
                 && (resolveOptionsV2 opts).documents.isEmpty then
                 [Event.warn .librarianNoDocs] else [])
              ++ (mixedInit env conn (resolveOptionsV2 opts)
                   (parseSubtaskStrategies resp.content)).2 ++ ev)
           ++ [Event.gen .synthesizer])
      ∧ rs.length = (parseSubtaskStrategies resp.content).length
      ∧ ∀ (j : Nat) (sj : SubtaskStrategy),
          (parseSubtaskStrategies resp.content)[j]? = some sj →
          ∃ rj, rs[j]? = some rj
            ∧ rj.workerType = some (if sj.agentType = .librarian
                then AgentType.simple else sj.agentType)
            ∧ rj.approach = sj.approach := by
  obtain ⟨rs, ev, hrun, hlen, hpt⟩ := runAll_total
    (fun s => @mixedStrategyExec_none_total env conn (resolveOptionsV2 opts)
      hconn task s)
    (parseSubtaskStrategies resp.content)
  have hmix : executeMixedWorkers env conn (resolveOptionsV2 opts) task
      (parseSubtaskStrategies resp.content)
      = (.ok rs,
         (if (parseSubtaskStrategies resp.content).any
               (fun s => s.agentType = .librarian)
             && (resolveOptionsV2 opts).documents.isEmpty then
             [Event.warn .librarianNoDocs] else [])
           ++ (mixedInit env conn (resolveOptionsV2 opts)
                (parseSubtaskStrategies resp.content)).2 ++ ev) := by
    unfold executeMixedWorkers
    dsimp only
    rw [hinit, hrun]
  obtain ⟨syn, hsyn⟩ := hconn
    (.synthesis task (rs.map fun r => (r.approach, r.result)))
    (resolveOptionsV2 opts).model (resolveOptionsV2 opts).maxTokens
    (resolveOptionsV2 opts).temperature .synthesizer
  refine ⟨rs, ev, syn.content, ?_, hlen, hpt⟩
  unfold orchestrateV2
  dsimp only
  rw [hdec]
  dsimp only
  rw [if_neg (by simpa [List.isEmpty_iff] using hne)]
  rw [hmix]
  dsimp only
  rw [hsyn]

/-- C7: without a global override (the mixed-workers orchestrator), a
strategy hinted librarian is executed by the simple worker — for that
strategy only, the others keep their own hinted worker — with a warning,
and the run still completes, in both downgrade situations: (i) no documents
configured; (ii) the librarian init phase failed. -/
theorem librarian_downgrade_c7 :
    (∀ (env : Env) (conn : Connector) (opts : OrchestratorOptionsV2)
        (task : Str) (resp : LLMResponse) (i : Nat) (s : SubtaskStrategy),
      (∀ p m mt t r, ∃ rsp, conn.llmCall p m mt t r = .ok rsp) →
      conn.llmCall (.orchestratorMixed task (resolveOptionsV2 opts).context
          ((resolveOptionsV2 opts).documents.map basename))
        (resolveOptionsV2 opts).model (resolveOptionsV2 opts).maxTokens
        (resolveOptionsV2 opts).temperature .orchestrator = .ok resp →
      (parseSubtaskStrategies resp.content)[i]? = some s →
      s.agentType = .librarian →
      (resolveOptionsV2 opts).documents = [] →
      ∃ res log, orchestrateV2 env conn opts task = (.ok res, log)
        ∧ Event.warn .librarianNoDocs ∈ log
        ∧ res.strategies = parseSubtaskStrategies resp.content
        ∧ res.results.length = res.strategies.length
        ∧ ∀ (j : Nat) (sj : SubtaskStrategy), res.strategies[j]? = some sj →
            ∃ rj, res.results[j]? = some rj
              ∧ rj.workerType = some (if sj.agentType = .librarian
                  then AgentType.simple else sj.agentType))
    ∧ (∀ (env : Env) (conn : Connector) (opts : OrchestratorOptionsV2)
        (task : Str) (resp : LLMResponse) (i : Nat) (s : SubtaskStrategy)
        (e : Err) (evs0 : List Event),
      (∀ p m mt t r, ∃ rsp, conn.llmCall p m mt t r = .ok rsp) →
      conn.llmCall (.orchestratorMixed task (resolveOptionsV2 opts).context
          ((resolveOptionsV2 opts).documents.map basename))
        (resolveOptionsV2 opts).model (resolveOptionsV2 opts).maxTokens
        (resolveOptionsV2 opts).temperature .orchestrator = .ok resp →
      (parseSubtaskStrategies resp.content)[i]? = some s →
      s.agentType = .librarian →
      (resolveOptionsV2 opts).documents ≠ [] →
      librarianInit env conn (resolveOptionsV2 opts).documents
        = (.error e, evs0) →
      ∃ res log, orchestrateV2 env conn opts task = (.ok res, log)
        ∧ Event.warn .librarianInitFailed ∈ log
        ∧ res.strategies = parseSubtaskStrategies resp.content
        ∧ res.results.length = res.strategies.length
        ∧ ∀ (j : Nat) (sj : SubtaskStrategy), res.strategies[j]? = some sj →
            ∃ rj, res.results[j]? = some rj
              ∧ rj.workerType = some (if sj.agentType = .librarian
                  then AgentType.simple else sj.agentType)) := by
  constructor
  · intro env conn opts task resp i s hconn hdec hi hlib hdocs
    have hmem : s ∈ parseSubtaskStrategies resp.content := by
      rcases List.getElem?_eq_some.mp hi with ⟨hlt, rfl⟩
      exact List.getElem_mem hlt
    have hne : parseSubtaskStrategies resp.content ≠ [] :=
      List.ne_nil_of_mem hmem
    have hany : (parseSubtaskStrategies resp.content).any
        (fun s => s.agentType = .librarian) = true :=
      List.any_eq_true.mpr ⟨s, hmem, by simp [hlib]⟩
    have hinit : mixedInit env conn (resolveOptionsV2 opts)
        (parseSubtaskStrategies resp.content) = (none, []) := by
      unfold mixedInit
      rw [hdocs]
      simp
    obtain ⟨rs, ev, syn, heq, hlen, hpt⟩ :=
      orchestrateV2_total_libNone hconn hdec hne (by rw [hinit])
    refine ⟨_, _, heq, ?_, rfl, hlen, ?_⟩
    · rw [hany, hdocs]
      simp
    · intro j sj hj
      obtain ⟨rj, hrj, hw, _⟩ := hpt j sj hj
      exact ⟨rj, hrj, hw⟩
  · intro env conn opts task resp i s e evs0 hconn hdec hi hlib hdocs hfail
    have hmem : s ∈ parseSubtaskStrategies resp.content := by
      rcases List.getElem?_eq_some.mp hi with ⟨hlt, rfl⟩
      exact List.getElem_mem hlt
    have hne : parseSubtaskStrategies resp.content ≠ [] :=
      List.ne_nil_of_mem hmem
    have hany : (parseSubtaskStrategies resp.content).any
        (fun s => s.agentType = .librarian) = true :=
      List.any_eq_true.mpr ⟨s, hmem, by simp [hlib]⟩
    have hinit : mixedInit env conn (resolveOptionsV2 opts)
        (parseSubtaskStrategies resp.content)
        = (none, evs0 ++ [Event.warn .librarianInitFailed]) := by
      unfold mixedInit
      rw [hany, hfail]
      have : (resolveOptionsV2 opts).documents.isEmpty = false := by
        simpa [List.isEmpty_iff] using hdocs
      rw [this]
      rfl
    obtain ⟨rs, ev, syn, heq, hlen, hpt⟩ :=
      orchestrateV2_total_libNone hconn hdec hne (by rw [hinit])
    refine ⟨_, _, heq, ?_, rfl, hlen, ?_⟩
    · rw [hinit]
      simp
    · intro j sj hj
      obtain ⟨rj, hrj, hw, _⟩ := hpt j sj hj
      exact ⟨rj, hrj, hw⟩

/-- Witness for C7 at concrete runs: a librarian-hinted decomposition with
no documents (downgrade case i) and with a document whose upload fails
(downgrade case ii). -/
theorem librarian_downgrade_c7_witness :
    (∃ res log, orchestrateV2 demoEnv libHintConn {} "t".toList = (.ok res, log)
      ∧ Event.warn .librarianNoDocs ∈ log
      ∧ res.strategies = parseSubtaskStrategies demoLibDecomposition
      ∧ res.results.length = res.strategies.length
      ∧ ∀ (j : Nat) (sj : SubtaskStrategy), res.strategies[j]? = some sj →
          ∃ rj, res.results[j]? = some rj
            ∧ rj.workerType = some (if sj.agentType = .librarian
                then AgentType.simple else sj.agentType))
    ∧ (∃ res log, orchestrateV2 demoEnv libHintConn
          { documents := some ["doc.pdf".toList] } "t".toList = (.ok res, log)
      ∧ Event.warn .librarianInitFailed ∈ log) := by
  constructor
  · exact librarian_downgrade_c7.1 demoEnv libHintConn {} "t".toList
      ⟨demoLibDecomposition, "gpt-4.1".toList, none⟩ 0
      ⟨"A1".toList, "D1".toList, .librarian⟩
      (fun p m mt t r => by cases p <;> exact ⟨_, rfl⟩)
      (by decide) (by decide) (by decide) (by decide)
  · obtain ⟨res, log, h1, h2, _, _, _⟩ :=
      librarian_downgrade_c7.2 demoEnv libHintConn
        { documents := some ["doc.pdf".toList] } "t".toList
        ⟨demoLibDecomposition, "gpt-4.1".toList, none⟩ 0
        ⟨"A1".toList, "D1".toList, .librarian⟩
        .librarianInitAllFailed
        [Event.warn (.uploadFailed "doc.pdf".toList)]
        (fun p m mt t r => by cases p <;> exact ⟨_, rfl⟩)
        (by decide) (by decide) (by decide) (by decide) (by decide)
    exact ⟨res, log, h1, h2⟩

/-- C8: automatic worker selection follows the exact priority order of
`executeAutoWorkers` — documents configured routes to the librarian workers;
otherwise a recency/topic keyword match routes to web search; otherwise a
short task without complexity keywords routes to the simple workers;
otherwise web search is the default — and for the battery-chemistry task
with no documents (which matches the keyword `recent`), an auto-mode run
with a total connector completes with every result executed by the search
worker. -/
theorem auto_mode_priority_c8 :
    (∀ (env : Env) (conn : Connector) (o : ResolvedOptionsV1) (task : Str)
        (s : List SubtaskStrategy), o.librarianFiles ≠ [] →
      executeAutoWorkersV1 env conn o task s
        = executeLibrarianWorkersV1 env conn o task s)
    ∧ (∀ (env : Env) (conn : Connector) (o : ResolvedOptionsV1) (task : Str)
        (s : List SubtaskStrategy), o.librarianFiles = [] →
      needsWebSearch (lowerStr task) = true →
      executeAutoWorkersV1 env conn o task s
        = executeWebSearchWorkersV1 conn o.model o.context task s)
    ∧ (∀ (env : Env) (conn : Connector) (o : ResolvedOptionsV1) (task : Str)
        (s : List SubtaskStrategy), o.librarianFiles = [] →
      needsWebSearch (lowerStr task) = false →
      isSimpleTask (lowerStr task) = true →
      executeAutoWorkersV1 env conn o task s
        = executeSimpleWorkersV1 conn o.maxTokens o.temperature o.context task s)
    ∧ (∀ (env : Env) (conn : Connector) (o : ResolvedOptionsV1) (task : Str)
        (s : List SubtaskStrategy), o.librarianFiles = [] →
      needsWebSearch (lowerStr task) = false →
      isSimpleTask (lowerStr task) = false →
      executeAutoWorkersV1 env conn o task s
        = executeWebSearchWorkersV1 conn o.model o.context task s)
    ∧ needsWebSearch (lowerStr batteryTask) = true
    ∧ (∀ (env : Env) (conn : Connector) (opts : OrchestratorOptionsV1)
        (resp : LLMResponse),
      (resolveOptionsV1 opts).workerType = .auto →
      (resolveOptionsV1 opts).enableLibrarian = false →
      (resolveOptionsV1 opts).enableWebSearch = false →
      (resolveOptionsV1 opts).librarianFiles = [] →
      (∀ p m mt t r, ∃ rsp, conn.llmCall p m mt t r = .ok rsp) →
      conn.llmCall (.orchestratorLegacy batteryTask (resolveOptionsV1 opts).context)
        (resolveOptionsV1 opts).model (resolveOptionsV1 opts).maxTokens
        (resolveOptionsV1 opts).temperature .orchestrator = .ok resp →
      parseSubtaskStrategies resp.content ≠ [] →
      ∃ res log, orchestrateV1 env conn opts batteryTask = (.ok res, log)
        ∧ res.results.length = res.strategies.length
        ∧ ∀ (j : Nat) (rj : WorkerResult), res.results[j]? = some rj →
            rj.workerType = some AgentType.search) := by
  refine ⟨?_, ?_, ?_, ?_, by decide, ?_⟩
  · intro env conn o task s h
    unfold executeAutoWorkersV1
    dsimp only
    rw [if_pos (by simpa [List.isEmpty_iff] using h)]
  · intro env conn o task s h1 h2
    unfold executeAutoWorkersV1
    dsimp only
    rw [if_neg (by simp [h1]), if_pos h2]
  · intro env conn o task s h1 h2 h3
    unfold executeAutoWorkersV1
    dsimp only
    rw [if_neg (by simp [h1]), if_neg (by simp [h2]), if_pos h3]
  · intro env conn o task s h1 h2 h3
    unfold executeAutoWorkersV1
    dsimp only
    rw [if_neg (by simp [h1]), if_neg (by simp [h2]), if_neg (by simp [h3])]
  · intro env conn opts resp hwt hel hws hfiles hconn hdec hne
    obtain ⟨rs, ev, hrun, hlen, hpt⟩ := runAll_total
      (fun s => searchDispatch_total hconn (resolveOptionsV1 opts).model
        (resolveOptionsV1 opts).context batteryTask s)
      (parseSubtaskStrategies resp.content)
    obtain ⟨syn, hsyn⟩ := hconn
      (.synthesis batteryTask (rs.map fun r => (r.approach, r.result)))
      (resolveOptionsV1 opts).model (resolveOptionsV1 opts).maxTokens
      (resolveOptionsV1 opts).temperature .synthesizer
    have hauto : executeAutoWorkersV1 env conn (resolveOptionsV1 opts)
        batteryTask (parseSubtaskStrategies resp.content)
        = (.ok rs, ev) := by
      unfold executeAutoWorkersV1
      dsimp only
      rw [if_neg (by simp [hfiles]), if_pos (by decide)]
      exact hrun
    have heq : orchestrateV1 env conn opts batteryTask
        = (.ok ⟨batteryTask, parseSubtaskStrategies resp.content, rs, syn.content⟩,
           (Event.gen .orchestrator ::
             (parseStrategyWarnings resp.content).map
               (fun g => Event.warn (.invalidAgent g)))
           ++ ev ++ [Event.gen .synthesizer]) := by
      unfold orchestrateV1
      dsimp only
      rw [hdec]
      dsimp only
      rw [if_neg (by simpa [List.isEmpty_iff] using hne)]
      rw [if_neg (by simp [hwt, hel]), if_neg (by simp [hwt, hws]),
        if_neg (by simp [hwt])]
      rw [hauto]
      dsimp only
      rw [hsyn]
    refine ⟨_, _, heq, hlen, ?_⟩
    intro j rj hrj
    have hj : j < rs.length := (List.getElem?_eq_some.mp hrj).1
    have hj2 : j < (parseSubtaskStrategies resp.content).length := hlen ▸ hj
    obtain ⟨rj2, hrj2, hw, _⟩ := hpt j _ (List.getElem?_eq_some.mpr ⟨hj2, rfl⟩)
    have : some rj = some rj2 := hrj.symm.trans hrj2
    injection this with h2
    rw [h2]
    exact hw

/-- Witness for C8: the demo auto-mode run on the battery task, with no
documents, yields search-typed results throughout. -/
theorem auto_mode_priority_c8_witness :
    ∃ res log, orchestrateV1 demoEnv demoConn {} batteryTask = (.ok res, log)
      ∧ res.results.length = res.strategies.length
      ∧ ∀ (j : Nat) (rj : WorkerResult), res.results[j]? = some rj →
          rj.workerType = some AgentType.search :=
  auto_mode_priority_c8.2.2.2.2.2 demoEnv demoConn {}
    ⟨demoDecomposition, "gpt-4.1".toList, none⟩
    (by decide) (by decide) (by decide) (by decide)
    (fun p m mt t r => by cases p <;> exact ⟨_, rfl⟩)
    (by decide) (by decide)

/-- C9: when the retrieval-augmented call of the web-search worker fails,
the worker warns and performs one plain generation call; a successful
fallback yields a result ending in the visible background-knowledge
disclaimer, with no sources and searchPerformed false; a failed fallback
surfaces the worker execution error. -/
theorem webSearch_fallback_c9 :
    ∀ (conn : Connector) (model task approach description : Str) (ctx : Ctx)
      (e : Err),
      conn.webSearchCall (.searchInput task approach description ctx) model
        (.webSearchWorker approach) = .error e →
      ((∀ resp, conn.llmCall (.fallbackP task approach description ctx) model
          1500 (7/10) (.fallbackWorker approach) = .ok resp →
        webSearchWorkerExecute conn model task approach description ctx
          = (.ok ⟨approach,
              trimStr (fallbackBody resp.content) ++ fallbackDisclaimer,
              none, false⟩,
            [.gen (.webSearchWorker approach),
             .warn (.webSearchFallback approach),
             .gen (.fallbackWorker approach)])
          ∧ fallbackDisclaimer
              <:+ trimStr (fallbackBody resp.content) ++ fallbackDisclaimer)
      ∧ (∀ e2, conn.llmCall (.fallbackP task approach description ctx) model
          1500 (7/10) (.fallbackWorker approach) = .error e2 →
        webSearchWorkerExecute conn model task approach description ctx
          = (.error (.fallbackFailed e2),
            [.gen (.webSearchWorker approach),
             .warn (.webSearchFallback approach),
             .gen (.fallbackWorker approach)]))) := by
  intro conn model task approach description ctx e hfail
  constructor
  · intro resp hresp
    constructor
    · unfold webSearchWorkerExecute webSearchExecFallback
      dsimp only
      rw [hfail, hresp]
    · exact ⟨trimStr (fallbackBody resp.content), rfl⟩
  · intro e2 hresp
    unfold webSearchWorkerExecute webSearchExecFallback
    dsimp only
    rw [hfail, hresp]

/-- Witness for C9: the failing-search connector takes the successful
fallback path; the dead connector surfaces the wrapped fallback error. -/
theorem webSearch_fallback_c9_witness :
    webSearchWorkerExecute failingSearchConn "gpt-4.1".toList "t".toList
        "a".toList "d".toList []
      = (.ok ⟨"a".toList,
          trimStr (fallbackBody demoWorkerResponse) ++ fallbackDisclaimer,
          none, false⟩,
        [.gen (.webSearchWorker "a".toList),
         .warn (.webSearchFallback "a".toList),
         .gen (.fallbackWorker "a".toList)])
    ∧ webSearchWorkerExecute deadConn "gpt-4.1".toList "t".toList
        "a".toList "d".toList []
      = (.error (.fallbackFailed (.generation "down".toList)),
        [.gen (.webSearchWorker "a".toList),
         .warn (.webSearchFallback "a".toList),
         .gen (.fallbackWorker "a".toList)]) :=
  ⟨((webSearch_fallback_c9 failingSearchConn "gpt-4.1".toList "t".toList
      "a".toList "d".toList [] (.retrieval "down".toList) (by decide)).1
    ⟨demoWorkerResponse, "gpt-4.1".toList, none⟩ (by decide)).1,
   (webSearch_fallback_c9 deadConn "gpt-4.1".toList "t".toList
      "a".toList "d".toList [] (.retrieval "down".toList) (by decide)).2
    (.generation "down".toList) (by decide)⟩

/-- C10: the orchestrator constructors replace every JavaScript-falsy option
value with its default: passing temperature 0 or maxTokens 0 (or an empty
model string) silently yields 0.7, 1500 (and the default model); and in no
resolved configuration is temperature or maxTokens zero, so zero is not an
expressible setting for these options. -/
theorem options_falsy_defaults_c10 :
    (resolveOptionsV1 { temperature := some 0, maxTokens := some 0 }).temperature
        = 7/10
    ∧ (resolveOptionsV1 { temperature := some 0, maxTokens := some 0 }).maxTokens
        = 1500
    ∧ (resolveOptionsV0 { temperature := some 0, maxTokens := some 0 }).temperature
        = 7/10
    ∧ (resolveOptionsV0 { temperature := some 0, maxTokens := some 0 }).maxTokens
        = 1500
    ∧ (resolveOptionsV1 { model := some [] }).model = "gpt-4.1".toList
    ∧ (∀ o : OrchestratorOptionsV1,
        ((resolveOptionsV1 o).maxTokens == 0) = false
          ∧ ((resolveOptionsV1 o).temperature == 0) = false)
    ∧ (∀ o : OrchestratorOptionsV0,
        ((resolveOptionsV0 o).maxTokens == 0) = false
          ∧ ((resolveOptionsV0 o).temperature == 0) = false) := by
  refine ⟨rfl, rfl, rfl, rfl, rfl, ?_, ?_⟩
  · intro o
    constructor
    · rw [beq_eq_false_iff_ne]
      unfold resolveOptionsV1 orFalsyNat
      dsimp only
      cases o.maxTokens with
      | none => norm_num
      | some n =>
        by_cases hn : n = 0
        · simp [hn]
        · simp [hn]
    · rw [beq_eq_false_iff_ne]
      unfold resolveOptionsV1 orFalsyRat
      dsimp only
      cases o.temperature with
      | none => norm_num
      | some t =>
        by_cases ht : t = 0
        · simp [ht]
        · simp [ht]
  · intro o
    constructor
    · rw [beq_eq_false_iff_ne]
      unfold resolveOptionsV0 orFalsyNat
      dsimp only
      cases o.maxTokens with
      | none => norm_num
      | some n =>
        by_cases hn : n = 0
        · simp [hn]
        · simp [hn]
    · rw [beq_eq_false_iff_ne]
      unfold resolveOptionsV0 orFalsyRat
      dsimp only
      cases o.temperature with
      | none => norm_num
      | some t =>
        by_cases ht : t = 0
        · simp [ht]
        · simp [ht]

/-- Witness for C6 at a concrete input with the unrecognized literal
`wizard`. -/
theorem parseSubtaskStrategies_unrecognized_c6_witness :
    (parseSubtaskStrategies
        "<approach>A</approach><agent>wizard</agent><description>D</description>".toList)[0]?
        = some ⟨"A".toList, "D".toList, AgentType.simple⟩
    ∧ "wizard".toList ∈ parseStrategyWarnings
        "<approach>A</approach><agent>wizard</agent><description>D</description>".toList :=
  parseSubtaskStrategies_unrecognized_c6 _ 0 _ _ _
    (by decide) (by decide) (by decide) (by decide)

end Langelot
